import Mathlib

/-!
Verification development for the bill-parsing and validation pipeline of the
SIH-2025-CYBER-COMETS repository.

The development shallowly embeds two JavaScript components:

* `BillParser` (`parseBillData` and its helpers) — a heuristic extractor that
  turns raw OCR text into a structured bill record; and
* `ValidationService` (`validateBill` and its helpers, from the standalone
  validation service in `backend/services/ocrService.js`) — a battery of
  consistency checks over a bill record producing typed errors, warnings,
  per-check pass/fail flags and a confidence score.

Modelling conventions:

* JavaScript numbers are modelled as `ℚ` (the pipeline only performs exact
  decimal arithmetic on small quantities; binary floating-point rounding is out
  of scope).  `parseFloat(x.toFixed(2))` is modelled by `round2`.
* JavaScript `Date` values are modelled by their integer epoch-millisecond time
  value.  The host time zone is fixed to UTC, so `getDay`/`getHours` are
  derived from the time value directly.  `new Date(string)` is modelled by
  `jsDateParse`, which covers the ISO `YYYY-MM-DD` / `YYYY-MM-DDTHH:MM[:SS]`
  shapes (date-only and date-time agree because the host is UTC); strings
  outside this subset are treated like JavaScript's Invalid Date.
* The validator's ambient clock `new Date()` is made explicit: `validateBill`
  takes the current epoch-millisecond time `now` as a parameter.
* Validation issues carry a `type` and a `severity`.  The JavaScript issue
  objects additionally carry a human-readable `message` string and optional
  `field`/`expected`/`actual` metadata; none of the verified claims depend on
  those, so they are not modelled.
* Regular-expression matching is embedded by specialised character-list
  scanners that implement exactly the concrete patterns appearing in the
  source (including greediness, alternation order, left-to-right `matchAll`
  scanning and word boundaries), restricted to the ASCII whitespace characters
  space, tab, CR, LF.
-/

set_option allowUnsafeReducibility true in
attribute [semireducible] Rat.add Rat.mul Rat.sub Rat.div Rat.neg Rat.inv Rat.blt

set_option maxRecDepth 100000

namespace BillVerify

/- ## Basic string utilities (JavaScript string primitives used by the code) -/

/-- JavaScript whitespace as used by `\s`, `trim` and friends, restricted to
the ASCII whitespace characters that can occur in the pipeline's inputs. -/
def isWs (c : Char) : Bool :=
  c = ' ' || c = '\t' || c = '\n' || c = '\r'

/-- Drop leading and trailing whitespace (model of `String.prototype.trim`). -/
def trimC (l : List Char) : List Char :=
  ((l.dropWhile isWs).reverse.dropWhile isWs).reverse

def strTrim (s : String) : String := String.mk (trimC s.toList)

/-- Model of `String.prototype.toLowerCase` on the ASCII inputs in scope. -/
def strLower (s : String) : String := String.mk (s.toList.map Char.toLower)

/-- Does `pat` occur as a prefix of `l`? -/
def hasPrefixC : List Char → List Char → Bool
  | _, [] => true
  | [], _ :: _ => false
  | c :: l, p :: ps => c = p && hasPrefixC l ps

/-- Does `pat` occur as a contiguous substring of `l`?  Model of
`String.prototype.includes`. -/
def containsC : List Char → List Char → Bool
  | [], pat => pat.isEmpty
  | c :: rest, pat => hasPrefixC (c :: rest) pat || containsC rest pat

def strIncludes (s pat : String) : Bool := containsC s.toList pat.toList

/-- Collapse every maximal whitespace run to a single space
(model of `replace(/\s+/g, ' ')`). -/
def collapseWs : List Char → List Char
  | [] => []
  | [c] => if isWs c then [' '] else [c]
  | c :: d :: rest =>
    if isWs c && isWs d then collapseWs (d :: rest)
    else (if isWs c then ' ' else c) :: collapseWs (d :: rest)

/-- Numeric value of a list of decimal digit characters (model of `parseInt`
on an all-digit string). -/
def digitsToNat (l : List Char) : ℕ := l.foldl (fun n c => 10 * n + (c.toNat - 48)) 0

/-- Split a character list at every occurrence of `c` (model of
`String.prototype.split` with a single-character separator: empty parts are
kept, as in JavaScript). -/
def splitCharList (c : Char) : List Char → List (List Char)
  | [] => [[]]
  | x :: rest =>
    let r := splitCharList c rest
    if x = c then [] :: r
    else
      match r with
      | h :: t => (x :: h) :: t
      | [] => [[x]]

/-- Replace the first occurrence of `pat` in `l` by nothing (model of
`String.prototype.replace` with a plain-string pattern and empty replacement).
If `pat` does not occur, `l` is returned unchanged. -/
def replaceFirstC : List Char → List Char → List Char
  | [], _ => []
  | c :: rest, pat =>
    if hasPrefixC (c :: rest) pat then (c :: rest).drop pat.length
    else c :: replaceFirstC rest pat

/- ## Rational-number utilities -/

/-- Model of `parseFloat(q.toFixed(2))` for a nonnegative rational: round to
two decimal places, half away from zero (`toFixed` picks the larger candidate
integer for the magnitude). -/
def round2nn (q : ℚ) : ℚ := ((⌊q * 100 + 1 / 2⌋ : ℤ) : ℚ) / 100

/-- Model of `parseFloat(q.toFixed(2))`: round to two decimal places, ties away
from zero. -/
def round2 (q : ℚ) : ℚ := if q < 0 then -round2nn (-q) else round2nn q

/-- `q` is an exact multiple of one hundredth (one currency minor unit). -/
def IsCent (q : ℚ) : Prop := ∃ n : ℤ, q = (n : ℚ) / 100

/- ## JavaScript date model -/

def isLeapYear (y : ℤ) : Bool := (y % 4 == 0 && y % 100 != 0) || (y % 400 == 0)

def daysInMonth (y : ℤ) (m : ℕ) : ℕ :=
  if m = 2 then (if isLeapYear y then 29 else 28)
  else if m = 4 || m = 6 || m = 9 || m = 11 then 30
  else 31

/-- Days since the Unix epoch of the civil date `y-m-d` (proleptic Gregorian
calendar; the standard days-from-civil algorithm, written with floor
division, which is what `/` on `ℤ` provides for the positive divisors used). -/
def daysFromCivil (y : ℤ) (m d : ℕ) : ℤ :=
  let yAdj : ℤ := if m ≤ 2 then y - 1 else y
  let era : ℤ := yAdj / 400
  let yoe : ℤ := yAdj - era * 400
  let mp : ℤ := ((m : ℤ) + 9) % 12
  let doy : ℤ := (153 * mp + 2) / 5 + (d : ℤ) - 1
  let doe : ℤ := yoe * 365 + yoe / 4 - yoe / 100 + doy
  era * 146097 + doe - 719468

/-- Time-of-day part of an ISO date string: empty, or `THH:MM`, or `THH:MM:SS`;
returns the milliseconds within the day. -/
def parseTimePart : List Char → Option ℤ
  | [] => some 0
  | 'T' :: h1 :: h2 :: ':' :: m1 :: m2 :: rest =>
    if h1.isDigit && h2.isDigit && m1.isDigit && m2.isDigit then
      let hh := digitsToNat [h1, h2]
      let mm := digitsToNat [m1, m2]
      let ss? : Option ℕ :=
        match rest with
        | [] => some 0
        | ':' :: s1 :: s2 :: [] =>
          if s1.isDigit && s2.isDigit then some (digitsToNat [s1, s2]) else none
        | _ => none
      match ss? with
      | some ss =>
        if hh ≤ 23 && mm ≤ 59 && ss ≤ 59 then
          some (((hh * 3600 + mm * 60 + ss : ℕ) : ℤ) * 1000)
        else none
      | none => none
    else none
  | _ => none

/-- Model of `new Date(s).getTime()` for the ISO string shapes
`YYYY-MM-DD` and `YYYY-MM-DDTHH:MM[:SS]` with the host fixed to UTC.
`none` corresponds to JavaScript's Invalid Date (`NaN` time value); strings in
other formats that JavaScript's `Date` parser might accept are outside the
modelled subset and also map to `none`. -/
def jsDateParse (s : String) : Option ℤ :=
  match s.toList with
  | y1 :: y2 :: y3 :: y4 :: '-' :: m1 :: m2 :: '-' :: d1 :: d2 :: rest =>
    if [y1, y2, y3, y4, m1, m2, d1, d2].all Char.isDigit then
      let y : ℤ := (digitsToNat [y1, y2, y3, y4] : ℤ)
      let m := digitsToNat [m1, m2]
      let d := digitsToNat [d1, d2]
      if 1 ≤ m && m ≤ 12 && 1 ≤ d && d ≤ daysInMonth y m then
        match parseTimePart rest with
        | some msInDay => some (daysFromCivil y m d * 86400000 + msInDay)
        | none => none
      else none
    else none
  | _ => none

/-- Model of `Date.prototype.getDay` (0 = Sunday) for a UTC host:
1970-01-01 was a Thursday. -/
def jsGetDay (ms : ℤ) : ℤ := ((ms / 86400000) + 4) % 7

/-- Model of `Date.prototype.getHours` for a UTC host. -/
def jsGetHours (ms : ℤ) : ℤ := (ms / 3600000) % 24

/- ## Data model -/

inductive Severity
  | low
  | medium
  | high
deriving DecidableEq

/-- The closed set of issue kinds used by the parser/validator pipeline. -/
inductive IssueType
  | MATH_ERROR
  | TAX_ERROR
  | TOTAL_ERROR
  | DATE_ERROR
  | OLD_DATE
  | DUPLICATE_ITEMS
  | PRICE_OUTLIER
  | SUSPICIOUS_PATTERN
  | FUTURE_DATE
  | VALIDATION_ERROR
deriving DecidableEq

/-- One validation error or warning.  The JavaScript objects additionally
carry `message` and optional `field`/`expected`/`actual` metadata, which no
verified claim depends on and which are therefore not modelled. -/
structure Issue where
  type : IssueType
  severity : Severity
deriving DecidableEq

/-- One purchased product line, as produced by `BillParser.parseItemLine`. -/
structure LineItem where
  name : String
  quantity : ℚ
  unitPrice : ℚ
  price : ℚ
deriving DecidableEq

/-- The structured bill record (`billData`): parser output, validator input. -/
structure BillData where
  date : String
  storeName : String
  storeAddress : String
  billNumber : String
  items : List LineItem
  subtotal : ℚ
  tax : ℚ
  taxRate : ℚ
  discount : ℚ
  total : ℚ
  currency : String
  rawText : String
deriving DecidableEq

/-- The per-check pass/fail flags published in `validation.algorithmResults`. -/
structure AlgorithmResults where
  mathVerification : Bool
  taxValidation : Bool
  totalCheck : Bool
  dateValidation : Bool
  patternAnalysis : Bool
deriving DecidableEq

/-- The validator's result object. -/
structure Validation where
  isValid : Bool
  errors : List Issue
  warnings : List Issue
  confidenceScore : ℤ
  algorithmResults : AlgorithmResults
deriving DecidableEq

def pushError (v : Validation) (e : Issue) : Validation :=
  { v with errors := v.errors ++ [e] }

def pushWarning (v : Validation) (w : Issue) : Validation :=
  { v with warnings := v.warnings ++ [w] }

/- ## The parser (`BillParser`): regex scanners

The price/date/quantity regular expressions of the source are embedded as
specialised scanners over `List Char`.  Each scanner implements exactly one
concrete pattern, including its greediness and alternation order; scanning a
whole line for matches proceeds left to right, restarting after each match
(the semantics of `matchAll` for the non-empty patterns in scope). -/

/-- Case-insensitive literal match at the head of `l`; returns the actually
matched characters and the rest. -/
def tryLit : List Char → List Char → Option (List Char × List Char)
  | [], l => some ([], l)
  | _ :: _, [] => none
  | p :: ps, c :: cs =>
    if c.toLower = p then
      match tryLit ps cs with
      | some (m, r) => some (c :: m, r)
      | none => none
    else none

/-- The comma-group part `(,\d{3})*` of the price number pattern: returns the
matched characters, the digits they contribute, and the rest. -/
def scanCommaGroups : List Char → List Char × List Char × List Char
  | ',' :: a :: b :: c :: rest =>
    if a.isDigit && b.isDigit && c.isDigit then
      let (m, ds, r) := scanCommaGroups rest
      (',' :: a :: b :: c :: m, a :: b :: c :: ds, r)
    else ([], [], ',' :: a :: b :: c :: rest)
  | l => ([], [], l)

/-- The optional fraction part `(\.\d{2})?`: returns the matched characters,
the fraction value in hundredths, and the rest. -/
def scanFrac : List Char → List Char × ℕ × List Char
  | '.' :: a :: b :: rest =>
    if a.isDigit && b.isDigit then (['.', a, b], digitsToNat [a, b], rest)
    else ([], 0, '.' :: a :: b :: rest)
  | l => ([], 0, l)

/-- The number part `\d+(?:,\d{3})*(?:\.\d{2})?` of the price patterns at the
head of `l`: the matched characters, the numeric value of the match with the
commas removed (the model of `parseFloat(str.replace(/,/g, ''))`), and the
rest.  No backtracking arises: the mandatory digit run is maximal and every
later part can match the empty string. -/
def scanNum (l : List Char) : Option (List Char × ℚ × List Char) :=
  let ds := l.takeWhile Char.isDigit
  if ds.isEmpty then none
  else
    let r1 := l.drop ds.length
    let (mc, cds, r2) := scanCommaGroups r1
    let (mf, frac, r3) := scanFrac r2
    some (ds ++ mc ++ mf, (digitsToNat (ds ++ cds) : ℚ) + (frac : ℚ) / 100, r3)

/-- Price pattern `₹\s*(num)` at the head of `l`. -/
def matchRupeePrefix (l : List Char) : Option (ℚ × List Char) :=
  match l with
  | '₹' :: rest =>
    match scanNum (rest.dropWhile isWs) with
    | some (_, q, r) => some (q, r)
    | none => none
  | _ => none

/-- Price pattern `Rs\.?\s*(num)` (case-sensitive, as in the source) at the
head of `l`. -/
def matchRsPrefix (l : List Char) : Option (ℚ × List Char) :=
  match l with
  | 'R' :: 's' :: rest =>
    let r0 := match rest with | '.' :: t => t | t => t
    match scanNum (r0.dropWhile isWs) with
    | some (_, q, r) => some (q, r)
    | none => none
  | _ => none

/-- Price pattern `INR\s*(num)` (case-sensitive) at the head of `l`. -/
def matchINRPrefix (l : List Char) : Option (ℚ × List Char) :=
  match l with
  | 'I' :: 'N' :: 'R' :: rest =>
    match scanNum (rest.dropWhile isWs) with
    | some (_, q, r) => some (q, r)
    | none => none
  | _ => none

/-- Price pattern `(num)\s*₹` at the head of `l`. -/
def matchNumSuffix (l : List Char) : Option (ℚ × List Char) :=
  match scanNum l with
  | some (_, q, r) =>
    match r.dropWhile isWs with
    | '₹' :: r2 => some (q, r2)
    | _ => none
  | none => none

/-- All matches of `matcher` in `l`, scanning left to right and restarting
after each match (the `matchAll` semantics).  The fuel `l.length` is exact:
every pattern in scope consumes at least one character per match, so each
step either consumes a character or the scan position advances by one. -/
def allMatchesAux (matcher : List Char → Option (ℚ × List Char)) :
    ℕ → List Char → List ℚ
  | 0, _ => []
  | _ + 1, [] => []
  | fuel + 1, c :: rest =>
    match matcher (c :: rest) with
    | some (q, r) => q :: allMatchesAux matcher fuel r
    | none => allMatchesAux matcher fuel rest

def allMatches (matcher : List Char → Option (ℚ × List Char)) (l : List Char) : List ℚ :=
  allMatchesAux matcher l.length l

/-- `extractPriceFromLine`: try the four price patterns in source order; the
first pattern with any match wins, and its last match is the price. -/
def extractPriceFromLine (line : String) : Option ℚ :=
  let l := line.toList
  match (allMatches matchRupeePrefix l).getLast? with
  | some q => some q
  | none =>
    match (allMatches matchRsPrefix l).getLast? with
    | some q => some q
    | none =>
      match (allMatches matchINRPrefix l).getLast? with
      | some q => some q
      | none => (allMatches matchNumSuffix l).getLast?

/-- One alternative of `parseItemLine`'s stripping regex
`/₹\s*num|num\s*₹|Rs\.?\s*num/g` at the head of `l` (alternation in source
order); returns the rest after the match. -/
def stripMatcher (l : List Char) : Option (List Char) :=
  match matchRupeePrefix l with
  | some (_, r) => some r
  | none =>
    match matchNumSuffix l with
    | some (_, r) => some r
    | none =>
      match matchRsPrefix l with
      | some (_, r) => some r
      | none => none

/-- Remove every match of the stripping regex (model of
`line.replace(priceRegex, '')`). -/
def stripPricesAux : ℕ → List Char → List Char
  | 0, l => l
  | _ + 1, [] => []
  | fuel + 1, c :: rest =>
    match stripMatcher (c :: rest) with
    | some r => stripPricesAux fuel r
    | none => c :: stripPricesAux fuel rest

def stripPrices (l : List Char) : List Char := stripPricesAux l.length l

/-- JavaScript `\w`: ASCII letters, digits, underscore. -/
def isWordChar (c : Char) : Bool := c.isUpper || c.isLower || c.isDigit || c = '_'

/-- The word boundary `\b` after a word character: satisfied at end of input
or before a non-word character. -/
def boundaryOk : List Char → Bool
  | [] => true
  | c :: _ => !isWordChar c

/-- The unit alternation `(?:x|pcs?|kg|gm?|ml|ltr?)\b` of the quantity
pattern, case-insensitively, at the head of `l`.  Alternatives are tried in
source order; within an alternative the optional final letter is tried
greedily before being dropped, and each candidate must be followed by a word
boundary. -/
def unitAlternatives : List (List Char) :=
  [['x'], ['p','c','s'], ['p','c'], ['k','g'], ['g','m'], ['g'], ['m','l'],
   ['l','t','r'], ['l','t']]

def tryUnit (l : List Char) : Option (List Char × List Char) :=
  unitAlternatives.findSome? fun lit =>
    match tryLit lit l with
    | some (m, r) => if boundaryOk r then some (m, r) else none
    | none => none

/-- The quantity pattern `(\d+)\s*(?:x|pcs?|kg|gm?|ml|ltr?)\b` (with the `i`
flag) at the head of `l`: the matched characters and the captured quantity.
No other backtracking arises: the digit run and whitespace run are maximal
and no unit alternative begins with a digit or whitespace. -/
def matchQtyAt (l : List Char) : Option (List Char × ℕ) :=
  let ds := l.takeWhile Char.isDigit
  if ds.isEmpty then none
  else
    let r1 := l.drop ds.length
    let sp := r1.takeWhile isWs
    let r2 := r1.drop sp.length
    match tryUnit r2 with
    | some (m, _) => some (ds ++ sp ++ m, digitsToNat ds)
    | none => none

/-- First (leftmost) match of a positional matcher in `l`. -/
def firstMatchC {α : Type} (matcher : List Char → Option α) : List Char → Option α
  | [] => none
  | c :: rest =>
    match matcher (c :: rest) with
    | some m => some m
    | none => firstMatchC matcher rest

/-- The leading-line-number stripping regex `/^\d+\.?\s*/` of
`parseItemLine`. -/
def stripLeadingNumber (l : List Char) : List Char :=
  let ds := l.takeWhile Char.isDigit
  if ds.isEmpty then l
  else
    let r1 := l.drop ds.length
    let r2 := match r1 with | '.' :: t => t | t => t
    r2.dropWhile isWs

/-- `BillParser.parseItemLine`.  The final `unitPrice` is
`parseFloat((price / quantity).toFixed(2))`; when the extracted quantity is
`0` JavaScript produces `Infinity` there, which `ℚ` cannot represent — the
model yields `0` (division by zero) in that corner, and no theorem relies on
the `unitPrice` of a zero-quantity item. -/
def parseItemLine (line : String) : Option LineItem :=
  match extractPriceFromLine line with
  | none => none
  | some price =>
    if price = 0 then none  -- `if (!price) return null`: 0 is falsy
    else
      let desc0 := trimC (stripPrices line.toList)
      let qm := firstMatchC matchQtyAt desc0
      let quantity : ℚ := match qm with | some (_, n) => (n : ℚ) | none => 1
      let desc1 := match qm with
        | some (m, _) => trimC (replaceFirstC desc0 m)
        | none => desc0
      let desc2 := trimC (collapseWs (stripLeadingNumber desc1))
      if desc2.length < 2 then none
      else
        some { name := String.mk desc2
               quantity := quantity
               unitPrice := round2 (price / quantity)
               price := round2 price }

/-- The two-consecutive-letters test `/[A-Za-z]{2,}/`. -/
def hasTwoLetters : List Char → Bool
  | a :: b :: rest => (a.isAlpha && b.isAlpha) || hasTwoLetters (b :: rest)
  | _ => false

/-- The totals-keyword-with-colon test
`/(?:total|subtotal|tax|gst|amount|discount):/i`. -/
def totalsColonKeywords : List String :=
  ["total:", "subtotal:", "tax:", "gst:", "amount:", "discount:"]

/-- `BillParser.looksLikeItemLine`. -/
def looksLikeItemLine (line : String) : Bool :=
  let hasPrice := (extractPriceFromLine line).isSome
  let hasText := hasTwoLetters line.toList
  let isNotTotal := !(totalsColonKeywords.any (fun kw => strIncludes (strLower line) kw))
  hasPrice && hasText && isNotTotal && decide (line.length > 5)

def itemStartKeywords : List String :=
  ["item", "product", "description", "====", "----", "qty", "quantity"]

def itemEndKeywords : List String :=
  ["subtotal", "sub total", "total", "tax", "gst", "====", "----", "discount", "amount"]

/-- The boundary scan of `extractItems`: returns the start index (−1 when no
item section was recognised, as in the source) and the end index (`none`
meaning the loop ran to the end, i.e. `lines.length`).  Within one iteration
a line can both open the section and, if it carries an end keyword without
looking like an item line, close it. -/
def itemBoundsAux : ℕ → Bool → ℤ → List String → ℤ × Option ℕ
  | _, _, start, [] => (start, none)
  | i, inSec, start, line :: rest =>
    let lowerLine := strLower line
    let isStart := !inSec &&
      (itemStartKeywords.any (fun kw => strIncludes lowerLine kw) || looksLikeItemLine line)
    let inSec2 := inSec || isStart
    let start2 := if isStart then (i : ℤ) else start
    if inSec2 && itemEndKeywords.any (fun kw => strIncludes lowerLine kw) &&
        !looksLikeItemLine line then
      (start2, some i)
    else itemBoundsAux (i + 1) inSec2 start2 rest

/-- `BillParser.extractItems`: parse every line of the recognised section,
silently skipping lines the per-line parser rejects.  (When no section is
recognised the source's `Math.max(0, -1)`/`lines.length` defaults make the
loop scan every line.) -/
def extractItems (lines : List String) : List LineItem :=
  let bounds := itemBoundsAux 0 false (-1) lines
  let endIdx := bounds.2.getD lines.length
  let startNat := (max 0 bounds.1).toNat
  ((lines.take endIdx).drop startNat).filterMap parseItemLine

/- ## The parser: date extraction -/

def dateKeywords : List String := ["date", "dt", "dated", "bill date", "invoice date"]

def matchDateSep (c : Char) : Bool := c = '/' || c = '-'

/-- Candidate matches of `\d{1,2}` at the head of `l`, longest first
(the backtracking order of the greedy bounded quantifier). -/
def tryD12 (l : List Char) : List (List Char × List Char) :=
  match l with
  | a :: b :: rest =>
    if a.isDigit && b.isDigit then [([a, b], rest), ([a], b :: rest)]
    else if a.isDigit then [([a], b :: rest)]
    else []
  | [a] => if a.isDigit then [([a], [])] else []
  | [] => []

/-- Candidate matches of `\d{2,4}` at the head of `l`, longest first. -/
def tryD24 (l : List Char) : List (List Char × List Char) :=
  let ds := (l.takeWhile Char.isDigit).take 4
  if ds.length ≥ 4 then [(ds.take 4, l.drop 4), (ds.take 3, l.drop 3), (ds.take 2, l.drop 2)]
  else if ds.length = 3 then [(ds.take 3, l.drop 3), (ds.take 2, l.drop 2)]
  else if ds.length = 2 then [(ds, l.drop 2)]
  else []

/-- Date pattern 1, `(\d{1,2})[\/\-](\d{1,2})[\/\-](\d{2,4})`, at the head of
`l`; returns the matched text. -/
def matchDP1 (l : List Char) : Option (List Char) :=
  (tryD12 l).findSome? fun p =>
    match p.2 with
    | s1 :: r1 =>
      if matchDateSep s1 then
        (tryD12 r1).findSome? fun q =>
          match q.2 with
          | s2 :: r2 =>
            if matchDateSep s2 then
              (tryD24 r2).findSome? fun t => some (p.1 ++ s1 :: (q.1 ++ s2 :: t.1))
            else none
          | [] => none
      else none
    | [] => none

/-- Date pattern 2, `(\d{2,4})[\/\-](\d{1,2})[\/\-](\d{1,2})`. -/
def matchDP2 (l : List Char) : Option (List Char) :=
  (tryD24 l).findSome? fun p =>
    match p.2 with
    | s1 :: r1 =>
      if matchDateSep s1 then
        (tryD12 r1).findSome? fun q =>
          match q.2 with
          | s2 :: r2 =>
            if matchDateSep s2 then
              (tryD12 r2).findSome? fun t => some (p.1 ++ s1 :: (q.1 ++ s2 :: t.1))
            else none
          | [] => none
      else none
    | [] => none

def monthAbbrevs : List (List Char) :=
  [['j','a','n'], ['f','e','b'], ['m','a','r'], ['a','p','r'], ['m','a','y'], ['j','u','n'],
   ['j','u','l'], ['a','u','g'], ['s','e','p'], ['o','c','t'], ['n','o','v'], ['d','e','c']]

def monthFullNames : List (List Char) :=
  [['j','a','n','u','a','r','y'], ['f','e','b','r','u','a','r','y'], ['m','a','r','c','h'],
   ['a','p','r','i','l'], ['m','a','y'], ['j','u','n','e'], ['j','u','l','y'],
   ['a','u','g','u','s','t'], ['s','e','p','t','e','m','b','e','r'],
   ['o','c','t','o','b','e','r'], ['n','o','v','e','m','b','e','r'],
   ['d','e','c','e','m','b','e','r']]

/-- Date patterns 3 and 4, `(\d{1,2})\s*(Month)\s*(\d{2,4})` with the `i`
flag, parametrised by the month-name alternation. -/
def matchMonthDate (months : List (List Char)) (l : List Char) : Option (List Char) :=
  (tryD12 l).findSome? fun p =>
    let sp1 := p.2.takeWhile isWs
    let r1 := p.2.drop sp1.length
    months.findSome? fun mon =>
      match tryLit mon r1 with
      | some (m, r2) =>
        let sp2 := r2.takeWhile isWs
        let r3 := r2.drop sp2.length
        (tryD24 r3).findSome? fun t => some (p.1 ++ sp1 ++ m ++ sp2 ++ t.1)
      | none => none

/-- `civilFromDays`: inverse of `daysFromCivil` (year, month, day of a day
count since the epoch). -/
def civilFromDays (z0 : ℤ) : ℤ × ℕ × ℕ :=
  let z := z0 + 719468
  let era := z / 146097
  let doe := z - era * 146097
  let yoe := (doe - doe / 1460 + doe / 36524 - doe / 146096) / 365
  let y := yoe + era * 400
  let doy := doe - (365 * yoe + yoe / 4 - yoe / 100)
  let mp := (5 * doy + 2) / 153
  let d := doy - (153 * mp + 2) / 5 + 1
  let m := if mp < 10 then mp + 3 else mp - 9
  ((if m ≤ 2 then y + 1 else y), m.toNat, d.toNat)

def padZeros (width : ℕ) (n : ℕ) : String :=
  let s := toString n
  String.mk (List.replicate (width - s.length) '0') ++ s

/-- The date part of `Date.prototype.toISOString` (`YYYY-MM-DD`), for the
first-millennium-CE-or-later dates in scope. -/
def isoDateOfMs (ms : ℤ) : String :=
  let c := civilFromDays (ms / 86400000)
  padZeros 4 c.1.toNat ++ "-" ++ padZeros 2 c.2.1 ++ "-" ++ padZeros 2 c.2.2

/-- `BillParser.formatDate`: normalise to ISO `YYYY-MM-DD` when `new Date`
can parse the matched text, else return it verbatim.  `jsDateParse` models
the ISO subset of JavaScript's date parser; matched texts outside that subset
(e.g. `15/01/2024`) are returned verbatim, where JavaScript would additionally
normalise some US-style strings — no verified claim depends on this value. -/
def formatDate (dateString : String) : String :=
  match jsDateParse dateString with
  | some ms => isoDateOfMs ms
  | none => dateString

/-- `BillParser.findDateInLine`: the four date patterns in priority order;
the first pattern that matches anywhere in the line supplies the (leftmost)
match. -/
def findDateInLine (line : String) : Option String :=
  let l := line.toList
  let m :=
    match firstMatchC matchDP1 l with
    | some m => some m
    | none =>
      match firstMatchC matchDP2 l with
      | some m => some m
      | none =>
        match firstMatchC (matchMonthDate monthAbbrevs) l with
        | some m => some m
        | none => firstMatchC (matchMonthDate monthFullNames) l
  match m with
  | some t => some (formatDate (String.mk t))
  | none => none

/-- `BillParser.extractDate`: keyword-adjacent lines first, then any line. -/
def extractDate (lines : List String) : String :=
  match lines.findSome? (fun line =>
      if dateKeywords.any (fun kw => strIncludes (strLower line) kw) then
        findDateInLine line
      else none) with
  | some d => d
  | none =>
    match lines.findSome? findDateInLine with
    | some d => d
    | none => ""

/- ## The parser: store, address, bill number, totals -/

def storeKeywords : List String :=
  ["store", "mart", "shop", "market", "retail", "supermarket", "grocery"]

/-- The all-caps test `/^[A-Z\s&]+$/`. -/
def isUpperNameLine (l : List Char) : Bool :=
  !l.isEmpty && l.all (fun c => c.isUpper || isWs c || c = '&')

/-- `BillParser.extractStoreName`. -/
def extractStoreName (lines : List String) : String :=
  match (lines.take 3).find? (fun line =>
      decide (line.length > 5) && decide (line.length < 50) &&
        (storeKeywords.any (fun kw => strIncludes (strLower line) kw) ||
         isUpperNameLine line.toList ||
         strIncludes line "LTD" || strIncludes line "PVT")) with
  | some line => line
  | none =>
    match lines with
    | line0 :: _ => if line0.length > 3 then line0 else ""
    | [] => ""

def addressKeywords : List String :=
  ["address", "add", "location", "street", "road", "avenue", "pin", "pincode"]

def addressWords : List String :=
  ["street", "road", "avenue", "lane", "block", "plot", "house", "building"]

/-- The address-shape test `/\d+.*(?:street|road|...)/i`: some digit followed
(strictly later in the line) by an address word; equivalently, an address word
occurs after the first digit. -/
def looksLikeAddress (line : String) : Bool :=
  match ((strLower line).toList).dropWhile (fun c => !c.isDigit) with
  | _ :: rest => addressWords.any (fun kw => containsC rest kw.toList)
  | [] => false

/-- `BillParser.extractStoreAddress`. -/
def extractStoreAddress (lines : List String) : String :=
  match lines.find? (fun line =>
      addressKeywords.any (fun kw => strIncludes (strLower line) kw)) with
  | some line => line
  | none =>
    match lines.find? looksLikeAddress with
    | some line => line
    | none => ""

def billKeywords : List String := ["bill", "invoice", "receipt", "no", "number", "#"]

/-- A character of the captured bill code `[A-Z0-9\-]+` under the `i` flag. -/
def billCodeChar (c : Char) : Bool := c.isUpper || c.isLower || c.isDigit || c = '-'

/-- The bill-number pattern
`/(?:bill|invoice|receipt|no\.?|#)\s*:?\s*([A-Z0-9\-]+)/i` at the head of
`l`; returns the captured code.  The five alternatives begin with distinct
letters, so at most one can apply at a given position. -/
def matchBillAt (l : List Char) : Option (List Char) :=
  let kwRest : Option (List Char) :=
    match tryLit ['b','i','l','l'] l with
    | some (_, r) => some r
    | none =>
      match tryLit ['i','n','v','o','i','c','e'] l with
      | some (_, r) => some r
      | none =>
        match tryLit ['r','e','c','e','i','p','t'] l with
        | some (_, r) => some r
        | none =>
          match tryLit ['n','o'] l with
          | some (_, r) => some (match r with | '.' :: t => t | t => t)
          | none => match l with | '#' :: r => some r | _ => none
  match kwRest with
  | none => none
  | some r =>
    let r1 := r.dropWhile isWs
    let r2 := match r1 with | ':' :: t => t.dropWhile isWs | t => t
    let code := r2.takeWhile billCodeChar
    if code.isEmpty then none else some code

/-- The standalone-code test `/^[A-Z0-9\-]{3,15}$/` (case-sensitive). -/
def isStandaloneCode (l : List Char) : Bool :=
  decide (3 ≤ l.length) && decide (l.length ≤ 15) &&
    l.all (fun c => c.isUpper || c.isDigit || c = '-')

/-- `BillParser.extractBillNumber`. -/
def extractBillNumber (lines : List String) : String :=
  match lines.findSome? (fun line =>
      if billKeywords.any (fun kw => strIncludes (strLower line) kw) then
        match firstMatchC matchBillAt line.toList with
        | some code => some (String.mk code)
        | none => none
      else none) with
  | some code => code
  | none =>
    match lines.findSome? (fun line =>
        if isStandaloneCode (trimC line.toList) then some (String.mk (trimC line.toList))
        else none) with
    | some code => code
    | none => ""

def subtotalKeywords : List String := ["subtotal", "sub total", "sub-total", "amount"]

def taxKeywords : List String := ["tax", "gst", "vat", "cgst", "sgst", "igst"]

def discountKeywords : List String := ["discount", "off", "reduction"]

def totalKeywords : List String :=
  ["total", "grand total", "final total", "net total", "amount payable"]

/-- The tax-rate pattern `/(\d+(?:\.\d+)?)\s*%/` at the head of `l`; returns
the captured number. -/
def matchPercentAt (l : List Char) : Option ℚ :=
  let ds := l.takeWhile Char.isDigit
  if ds.isEmpty then none
  else
    let r1 := l.drop ds.length
    let fr : ℚ × List Char :=
      match r1 with
      | '.' :: t =>
        let fs := t.takeWhile Char.isDigit
        if fs.isEmpty then (0, '.' :: t)
        else ((digitsToNat fs : ℚ) / 10 ^ fs.length, t.drop fs.length)
      | t => (0, t)
    match fr.2.dropWhile isWs with
    | '%' :: _ => some ((digitsToNat ds : ℚ) + fr.1)
    | _ => none

/-- The subtotal block of `extractFinancialTotals`' line loop. -/
def applySubtotalLine (b : BillData) (line : String) : BillData :=
  if subtotalKeywords.any (fun kw => strIncludes (strLower line) kw) &&
      !(strIncludes (strLower line) "tax") && !(strIncludes (strLower line) "total") then
    match extractPriceFromLine line with
    | some price => if price > 0 then { b with subtotal := price } else b
    | none => b
  else b

/-- The tax block of `extractFinancialTotals`' line loop.  (`if (price &&
price >= 0)`: a price of `0` is falsy and is skipped.) -/
def applyTaxLine (b : BillData) (line : String) : BillData :=
  if taxKeywords.any (fun kw => strIncludes (strLower line) kw) then
    match extractPriceFromLine line with
    | some price =>
      if price ≠ 0 ∧ price ≥ 0 then
        let bt := { b with tax := b.tax + price }
        match firstMatchC matchPercentAt line.toList with
        | some rate => { bt with taxRate := max bt.taxRate rate }
        | none => bt
      else b
    | none => b
  else b

/-- The discount block of `extractFinancialTotals`' line loop. -/
def applyDiscountLine (b : BillData) (line : String) : BillData :=
  if discountKeywords.any (fun kw => strIncludes (strLower line) kw) then
    match extractPriceFromLine line with
    | some price => if price > 0 then { b with discount := price } else b
    | none => b
  else b

/-- The total block of `extractFinancialTotals`' line loop. -/
def applyTotalLine (b : BillData) (line : String) : BillData :=
  if totalKeywords.any (fun kw => strIncludes (strLower line) kw) &&
      !(strIncludes (strLower line) "sub") then
    match extractPriceFromLine line with
    | some price => if price > 0 then { b with total := price } else b
    | none => b
  else b

/-- One iteration of `extractFinancialTotals`' line loop: the four keyword
blocks run in source order over the mutable record. -/
def applyFinancialLine (b : BillData) (line : String) : BillData :=
  applyTotalLine (applyDiscountLine (applyTaxLine (applySubtotalLine b line) line) line) line

/-- `BillParser.extractFinancialTotals`. -/
def extractFinancialTotals (lines : List String) (b : BillData) : BillData :=
  lines.foldl applyFinancialLine b

/-- Step 1 of `calculateDerivedValues`: derive the subtotal from the items
when it was not printed. -/
def deriveSubtotal (b : BillData) : BillData :=
  if b.subtotal = 0 ∧ b.items.length > 0 then
    { b with subtotal := b.items.foldl (fun s i => s + i.price) 0 }
  else b

/-- Step 2 of `calculateDerivedValues`: derive the tax rate. -/
def deriveTaxRate (b : BillData) : BillData :=
  if b.taxRate = 0 ∧ b.subtotal > 0 ∧ b.tax > 0 then
    { b with taxRate := b.tax / b.subtotal * 100 }
  else b

/-- Step 3 of `calculateDerivedValues`: derive the total. -/
def deriveTotal (b : BillData) : BillData :=
  if b.total = 0 then { b with total := b.subtotal + b.tax - b.discount } else b

/-- Final step of `calculateDerivedValues`: round the five numeric fields to
two decimal places. -/
def roundFields (b : BillData) : BillData :=
  { b with
    subtotal := round2 b.subtotal
    tax := round2 b.tax
    taxRate := round2 b.taxRate
    discount := round2 b.discount
    total := round2 b.total }

/-- `BillParser.calculateDerivedValues`: the three derivations in source
order over the mutable record, then the rounding pass. -/
def calculateDerivedValues (b : BillData) : BillData :=
  roundFields (deriveTotal (deriveTaxRate (deriveSubtotal b)))

/-- `BillParser.detectCurrency`.  Modelled from the spec for the dollar
branch: the corpus copy of the source is corrupted at exactly that line (the
dollar characters were stripped from it); the spec's priority order
₹/Rs/INR, then dollar, then €, then £, defaulting to ₹, is used. -/
def detectCurrency (text : String) : String :=
  if strIncludes text "₹" || strIncludes text "Rs" || strIncludes text "INR" then "₹"
  else if strIncludes text "$" then "$"
  else if strIncludes text "€" then "€"
  else if strIncludes text "£" then "£"
  else "₹"

/-- `BillParser.preprocessText`: split on newlines, trim, drop empties,
collapse internal whitespace. -/
def preprocessText (text : String) : List String :=
  ((((splitCharList '\n' text.toList).map String.mk).map strTrim).filter
      (fun l => l.length > 0)).map
    (fun l => String.mk (collapseWs l.toList))

/-- The `billData` object literal built at the top of `parseBillData`: the
extraction passes, with the five numeric fields initialised to 0. -/
def initialBillData (raw : String) (lines : List String) : BillData :=
  { date := extractDate lines
    storeName := extractStoreName lines
    storeAddress := extractStoreAddress lines
    billNumber := extractBillNumber lines
    items := extractItems lines
    subtotal := 0
    tax := 0
    taxRate := 0
    discount := 0
    total := 0
    currency := detectCurrency raw
    rawText := raw }

/-- The bill record as assembled by `parseBillData` just before
`calculateDerivedValues` runs: the extraction passes plus the financial-totals
pass (`subtotal`/`tax`/`taxRate`/`discount`/`total` start at 0 and are
overwritten only by printed lines). -/
def parsePre (raw : String) : BillData :=
  extractFinancialTotals (preprocessText raw) (initialBillData raw (preprocessText raw))

/-- `BillParser.parseBillData` for an actual string input (the body of the
source's `try` block, which is total on strings: every extraction helper is a
total function). -/
def parseBillData (raw : String) : BillData :=
  calculateDerivedValues (parsePre raw)

/-- The message of the error rethrown by `parseBillData`'s `catch` for a
`null` input (`ocrText.split` throws a `TypeError`, rethrown with the
`Bill parsing failed:` prefix). -/
def parseFailureMessage : String :=
  "Bill parsing failed: Cannot read properties of null"

/-- `parseBillData` at the JavaScript call boundary, where the input may be
`null` (not representable in `String`): a genuine string is parsed by the
total body, `null` makes the body throw and the `catch` rethrow the distinct
parse-failure error. -/
def parseBillDataJS : Option String → Except String BillData
  | some s => Except.ok (parseBillData s)
  | none => Except.error parseFailureMessage

/- ## The validator (`ValidationService` in `backend/services/ocrService.js`) -/

/-- `this.indianTaxRates` from the `ValidationService` constructor. -/
def indianTaxRates : List ℚ := [0, 5, 12, 18, 28]

/-- `this.maxReasonablePrice`. -/
def maxReasonablePrice : ℚ := 10000

/-- `this.maxBillAge` (days). -/
def maxBillAge : ℚ := 365

/-- The one-paisa tolerance used by the monetary comparisons. -/
def tolerance : ℚ := 1 / 100

/-- `billData.items.reduce((sum, item) => sum + item.price, 0)`. -/
def calculatedSubtotal (b : BillData) : ℚ :=
  b.items.foldl (fun s i => s + i.price) 0

/-- Algorithm 1: `validateMathematicalAccuracy`.  The subtotal mismatch check,
followed by a per-item `quantity × unitPrice` check.  The function's own
`try/catch` (which would downgrade a thrown exception to a warning) is dead
code for the typed records modelled here and is not represented. -/
def validateMathematicalAccuracy (b : BillData) (v : Validation) : Validation :=
  let v1 :=
    if |calculatedSubtotal b - b.subtotal| > tolerance then
      pushError v ⟨.MATH_ERROR, .high⟩
    else
      { v with algorithmResults := { v.algorithmResults with mathVerification := true } }
  b.items.foldl
    (fun v item =>
      if |item.quantity * item.unitPrice - item.price| > tolerance then
        pushError v ⟨.MATH_ERROR, .medium⟩
      else v)
    v1

/-- `findClosestTaxRate`: `this.indianTaxRates.reduce(...)` with no initial
value, so the first element `0` seeds the fold and the remaining rates are
folded over; a strictly closer rate replaces the current one. -/
def findClosestTaxRate (actualRate : ℚ) : ℚ :=
  [(5 : ℚ), 12, 18, 28].foldl
    (fun closest rate =>
      if |rate - actualRate| < |closest - actualRate| then rate else closest)
    0

/-- Algorithm 2: `validateTaxCalculations`.  Note: in arithmetic on `ℚ`,
`b.tax / b.subtotal` is `0` when `b.subtotal = 0`, whereas JavaScript produces
`Infinity`; theorems quantifying over receipts therefore assume
`b.subtotal ≠ 0` wherever the distinction could matter. -/
def validateTaxCalculations (b : BillData) (v : Validation) : Validation :=
  if b.tax = 0 then
    let v1 := pushWarning v ⟨.TAX_ERROR, .low⟩
    { v1 with algorithmResults := { v1.algorithmResults with taxValidation := true } }
  else
    let actualTaxRate := b.tax / b.subtotal * 100
    let closestValidRate := findClosestTaxRate actualTaxRate
    let rateTolerance : ℚ := 1 / 2
    let v1 :=
      if |actualTaxRate - closestValidRate| > rateTolerance then
        pushError v ⟨.TAX_ERROR, .medium⟩
      else
        { v with algorithmResults := { v.algorithmResults with taxValidation := true } }
    let expectedTax := b.subtotal * closestValidRate / 100
    if |expectedTax - b.tax| > 1 / 100 then pushError v1 ⟨.TAX_ERROR, .medium⟩ else v1

/-- Algorithm 3: `validateTotalAmount`. -/
def validateTotalAmount (b : BillData) (v : Validation) : Validation :=
  let calculatedTotal := b.subtotal + b.tax - b.discount
  let v1 :=
    if |calculatedTotal - b.total| > tolerance then
      pushError v ⟨.TOTAL_ERROR, .high⟩
    else
      { v with algorithmResults := { v.algorithmResults with totalCheck := true } }
  let v2 := if b.total < 0 then pushError v1 ⟨.TOTAL_ERROR, .high⟩ else v1
  if b.total > 100000 then pushWarning v2 ⟨.TOTAL_ERROR, .low⟩ else v2

/-- Algorithm 4: `validateDateLogic`, with the ambient `new Date()` made
explicit as `now` (epoch milliseconds).  An unparseable nonempty date string
is JavaScript's Invalid Date: its `NaN` time value makes every numeric
comparison false, so only the final flag assignment runs. -/
def validateDateLogic (now : ℤ) (b : BillData) (v : Validation) : Validation :=
  if b.date = "" then
    let v1 := pushWarning v ⟨.DATE_ERROR, .low⟩
    { v1 with algorithmResults := { v1.algorithmResults with dateValidation := true } }
  else
    match jsDateParse b.date with
    | none =>
      { v with algorithmResults := { v.algorithmResults with dateValidation := true } }
    | some ms =>
      let daysDifference : ℚ := ((now : ℚ) - (ms : ℚ)) / (1000 * 60 * 60 * 24)
      let v1 :=
        if daysDifference < -1 then pushError v ⟨.DATE_ERROR, .high⟩
        else if daysDifference > maxBillAge then pushWarning v ⟨.OLD_DATE, .low⟩
        else v
      let v2 :=
        if jsGetDay ms = 0 ∧ b.total > 1000 then pushWarning v1 ⟨.DATE_ERROR, .low⟩
        else v1
      { v2 with algorithmResults := { v2.algorithmResults with dateValidation := true } }

/-- `detectDuplicateItems`: names are compared lower-cased and trimmed; an
element whose first occurrence index differs from its own index is a
duplicate. -/
def detectDuplicateItems (b : BillData) (v : Validation) : Validation :=
  let itemNames := b.items.map (fun i => strTrim (strLower i.name))
  let duplicates := (itemNames.enum.filter (fun p => itemNames.indexOf p.2 ≠ p.1)).map (·.2)
  if duplicates.length > 0 then pushWarning v ⟨.DUPLICATE_ITEMS, .medium⟩ else v

/-- `detectPriceOutliers`.  The source condition is `zScore > 2 && price >
maxReasonablePrice` with `zScore = |price − mean| / stdDev`; since `ℚ` has no
square root, the condition is stated in the equivalent squared form
`(price − mean)² > 4·variance` (for `variance > 0` this is exactly
`zScore > 2`; for `variance = 0` every price equals the mean and both the
JavaScript condition — `0/0 = NaN > 2` — and the squared form are false). -/
def detectPriceOutliers (b : BillData) (v : Validation) : Validation :=
  if b.items.length < 3 then v
  else
    let prices := b.items.map (·.price)
    let mean := prices.foldl (· + ·) 0 / (prices.length : ℚ)
    let variance := (prices.foldl (fun s p => s + (p - mean) ^ 2) 0) / (prices.length : ℚ)
    let outliers := b.items.filter
      (fun i => decide ((i.price - mean) ^ 2 > 4 * variance) && decide (i.price > maxReasonablePrice))
    if outliers.length > 0 then pushWarning v ⟨.PRICE_OUTLIER, .low⟩ else v

/-- `analyzeQuantityPatterns`. -/
def analyzeQuantityPatterns (b : BillData) (v : Validation) : Validation :=
  let unusualQuantities := b.items.filter
    (fun i => decide (i.quantity > 100) || decide (i.quantity ≤ 0))
  if unusualQuantities.length > 0 then pushWarning v ⟨.SUSPICIOUS_PATTERN, .low⟩ else v

/-- `detectSuspiciousRounding`.  `x % 1 === 0` holds for a finite JavaScript
number exactly when it is an integer, modelled as denominator 1; likewise
`total % 10 === 0` holds exactly when `total / 10` is an integer. -/
def detectSuspiciousRounding (b : BillData) (v : Validation) : Validation :=
  let roundPrices := (b.items.filter (fun i => i.price.den == 1)).length
  let totalItems := b.items.length
  let v1 :=
    if roundPrices = totalItems ∧ totalItems > 3 then
      pushWarning v ⟨.SUSPICIOUS_PATTERN, .low⟩
    else v
  if (b.total / 10).den = 1 ∧ b.total > 100 then
    pushWarning v1 ⟨.SUSPICIOUS_PATTERN, .low⟩
  else v1

/-- Algorithm 5: `analyzePatterns` — the four pattern detectors followed by the
unconditional flag assignment. -/
def analyzePatterns (b : BillData) (v : Validation) : Validation :=
  let v1 := detectDuplicateItems b v
  let v2 := detectPriceOutliers b v1
  let v3 := analyzeQuantityPatterns b v2
  let v4 := detectSuspiciousRounding b v3
  { v4 with algorithmResults := { v4.algorithmResults with patternAnalysis := true } }

/-- The keyword table of `categorizeItems`, in the source's insertion order. -/
def categoryKeywords : List (String × List String) :=
  [("food", ["rice", "bread", "milk", "egg", "chicken", "vegetable", "fruit"]),
   ("alcohol", ["beer", "wine", "whisky", "vodka", "rum"]),
   ("baby", ["diaper", "formula", "baby", "infant"]),
   ("medical", ["medicine", "tablet", "syrup", "bandage"])]

/-- `categorizeItems`: collect, in first-hit order, every category one of whose
keywords occurs in some item name. -/
def categorizeItems (items : List LineItem) : List String :=
  items.foldl
    (fun cats item =>
      let itemName := strLower item.name
      categoryKeywords.foldl
        (fun cats p =>
          if p.2.any (fun kw => strIncludes itemName kw) && !(cats.contains p.1) then
            cats ++ [p.1]
          else cats)
        cats)
    []

/-- `validateItemCombinations`. -/
def validateItemCombinations (b : BillData) (v : Validation) : Validation :=
  let itemCategories := categorizeItems b.items
  if itemCategories.contains "baby" && itemCategories.contains "alcohol" then
    pushWarning v ⟨.SUSPICIOUS_PATTERN, .low⟩
  else v

/-- The group keys of `validatePricingConsistency`: lower-cased item names in
first-occurrence order (JavaScript object-key insertion order). -/
def groupKeys (items : List LineItem) : List String :=
  items.foldl
    (fun ks i =>
      let k := strLower i.name
      if ks.contains k then ks else ks ++ [k])
    []

/-- First-occurrence-order deduplication (model of `[...new Set(xs)]`). -/
def firstDedup (l : List ℚ) : List ℚ :=
  l.foldl (fun acc x => if acc.contains x then acc else acc ++ [x]) []

/-- `validatePricingConsistency`: for every group of same-named items, warn if
the group has more than one distinct unit price. -/
def validatePricingConsistency (b : BillData) (v : Validation) : Validation :=
  (groupKeys b.items).foldl
    (fun v key =>
      let group := b.items.filter (fun i => strLower i.name == key)
      if group.length > 1 then
        let uniquePrices := firstDedup (group.map (·.unitPrice))
        if uniquePrices.length > 1 then pushWarning v ⟨.PRICE_OUTLIER, .medium⟩ else v
      else v)
    v

/-- Algorithm 6: `validateBusinessLogic` (no try/catch in the source). -/
def validateBusinessLogic (b : BillData) (v : Validation) : Validation :=
  let v1 := if b.total < 1 then pushError v ⟨.TOTAL_ERROR, .high⟩ else v
  let v2 := validateItemCombinations b v1
  validatePricingConsistency b v2

/-- The leading decimal digit of a positive natural number. -/
def leadingDigit (n : ℕ) : ℕ := n / 10 ^ Nat.log 10 n

/-- Model of `price.toString().charAt(0)` for the finite numbers this pipeline
produces: a negative number prints a minus sign, a number in `[0, 1)` prints
`0` (as in `0.5`), and otherwise the first character is the leading digit of
the integer part. -/
def firstDigitChar (q : ℚ) : Char :=
  if q < 0 then '-'
  else if q < 1 then '0'
  else Char.ofNat (48 + leadingDigit ⌊q⌋.toNat)

/-- First-occurrence-order deduplication on characters (JavaScript object-key
insertion order for `digitCounts`). -/
def firstDedupChar (l : List Char) : List Char :=
  l.foldl (fun acc x => if acc.contains x then acc else acc ++ [x]) []

/-- `checkBenfordsLaw`.  With fewer than 10 items the check returns early.
JavaScript's key-reduce with no initial value throws on an empty key set and
is caught by `detectAnomalies`' own catch, so that case contributes
nothing. -/
def checkBenfordsLaw (b : BillData) (v : Validation) : Validation :=
  if b.items.length < 10 then v
  else
    let firstDigits := (b.items.map (fun i => firstDigitChar i.price)).filter (fun d => d ≠ '0')
    let keys := firstDedupChar firstDigits
    match keys with
    | [] => v
    | k :: rest =>
      let mostCommonDigit :=
        rest.foldl (fun a c => if firstDigits.count a > firstDigits.count c then a else c) k
      if mostCommonDigit ≠ '1' ∧ firstDigits.length > 20 then
        pushWarning v ⟨.SUSPICIOUS_PATTERN, .low⟩
      else v

/-- `checkTimingAnomalies`.  For an Invalid Date, `getHours()` is `NaN` and
both comparisons are false, so nothing is pushed.  (`hour > 23` is dead even
for valid dates since `getHours` ranges over `0..23`; it is kept as
written.) -/
def checkTimingAnomalies (b : BillData) (v : Validation) : Validation :=
  if b.date = "" then v
  else
    match jsDateParse b.date with
    | none => v
    | some ms =>
      let hour := jsGetHours ms
      if hour < 6 ∨ hour > 23 then pushWarning v ⟨.DATE_ERROR, .low⟩ else v

/-- Algorithm 7: `detectAnomalies`. -/
def detectAnomalies (b : BillData) (v : Validation) : Validation :=
  checkTimingAnomalies b (checkBenfordsLaw b v)

/-- The per-error deduction of `calculateConfidenceScore`. -/
def errorPenalty : Severity → ℤ
  | .high => 25
  | .medium => 15
  | .low => 5

/-- The per-warning deduction of `calculateConfidenceScore`.  The source file
is truncated inside this function immediately after the medium-severity
warning case (−10 for high, −5 for medium are visible).  Modelled from the
spec: the low-severity warning deduction is "defined analogously" — taken as
−2, continuing the error-to-warning ratio of the visible cases — and no
verified claim's verdict depends on this constant. -/
def warningPenalty : Severity → ℤ
  | .high => 10
  | .medium => 5
  | .low => 2

/-- `calculateConfidenceScore`: start at 100 and subtract per issue.  The
final clamp is modelled from the spec ("clamped at 0"); the truncated source
ends before the function's return. -/
def calculateConfidenceScore (v : Validation) : ℤ :=
  let s1 := v.errors.foldl (fun s e => s - errorPenalty e.severity) 100
  let s2 := v.warnings.foldl (fun s w => s - warningPenalty w.severity) s1
  max 0 s2

/-- The fresh `validation` object built at the top of `validateBill`. -/
def initialValidation : Validation :=
  { isValid := true
    errors := []
    warnings := []
    confidenceScore := 100
    algorithmResults :=
      { mathVerification := false
        taxValidation := false
        totalCheck := false
        dateValidation := false
        patternAnalysis := false } }

/-- The body of `validateBill`'s `try` block: run the seven checks in source
order, then compute `isValid` and the confidence score. -/
def validateBillBody (now : ℤ) (b : BillData) : Validation :=
  let v0 := initialValidation
  let v1 := validateMathematicalAccuracy b v0
  let v2 := validateTaxCalculations b v1
  let v3 := validateTotalAmount b v2
  let v4 := validateDateLogic now b v3
  let v5 := analyzePatterns b v4
  let v6 := validateBusinessLogic b v5
  let v7 := detectAnomalies b v6
  let v8 := { v7 with isValid := v7.errors.isEmpty }
  { v8 with confidenceScore := calculateConfidenceScore v8 }

/-- The result built by `validateBill`'s top-level `catch` branch: exactly one
high-severity `VALIDATION_ERROR`, confidence 0, invalid.  (The source assigns
the empty object to `algorithmResults`, whose five flags then read as absent
falsy values — modelled as all-false.) -/
def validationErrorResult : Validation :=
  { isValid := false
    errors := [⟨.VALIDATION_ERROR, .high⟩]
    warnings := []
    confidenceScore := 0
    algorithmResults :=
      { mathVerification := false
        taxValidation := false
        totalCheck := false
        dateValidation := false
        patternAnalysis := false } }

/-- The top-level `try/catch` of `validateBill`, as a function of the body's
outcome: a normal completion is returned as-is, an exception is converted to
`validationErrorResult`. -/
def validateBillCatch : Except String Validation → Validation
  | .ok v => v
  | .error _ => validationErrorResult

/-- `ValidationService.validateBill`, with the ambient clock explicit.  For
every well-typed record the body completes normally, so `validateBill` is the
body; `validateBillCatch` records what the catch branch would produce. -/
def validateBill (now : ℤ) (b : BillData) : Validation :=
  validateBillBody now b

/- ## State-passing form of `validateBill` (for the frame property)

In the source every check receives both objects (`this.check(billData,
validation)`) and both are mutable; inspection of each check's body shows
assignments to `validation` only, never to `billData`, so the state-passing
translation of each call returns the bill component unchanged. -/

/-- The seven check calls of `validateBill` in state-passing form over the
pair (billData, validation). -/
def validateBillPaired (now : ℤ) (p : BillData × Validation) : BillData × Validation :=
  let p1 := (p.1, validateMathematicalAccuracy p.1 p.2)
  let p2 := (p1.1, validateTaxCalculations p1.1 p1.2)
  let p3 := (p2.1, validateTotalAmount p2.1 p2.2)
  let p4 := (p3.1, validateDateLogic now p3.1 p3.2)
  let p5 := (p4.1, analyzePatterns p4.1 p4.2)
  let p6 := (p5.1, validateBusinessLogic p5.1 p5.2)
  (p6.1, detectAnomalies p6.1 p6.2)

/-- `validateBill` in state-passing form: the pair of the bill record as it
stands after all checks and the final validation result. -/
def validateBillS (now : ℤ) (b : BillData) : BillData × Validation :=
  let p := validateBillPaired now (b, initialValidation)
  let v8 := { p.2 with isValid := p.2.errors.isEmpty }
  (p.1, { v8 with confidenceScore := calculateConfidenceScore v8 })

/- ## Characterisations of the issues each check contributes

These lists restate, check by check, exactly which issues the corresponding
source function pushes; the lemmas below prove that each check appends its
list to the accumulating validation object. -/

/-- The condition of the subtotal-mismatch error. -/
def mathSubCond (b : BillData) : Prop := |calculatedSubtotal b - b.subtotal| > tolerance

/-- The condition of the per-item price-mismatch error. -/
def mathItemCond (i : LineItem) : Prop := |i.quantity * i.unitPrice - i.price| > tolerance

instance (b : BillData) : Decidable (mathSubCond b) := by
  unfold mathSubCond; infer_instance

instance (i : LineItem) : Decidable (mathItemCond i) := by
  unfold mathItemCond; infer_instance

/-- The errors pushed by `validateMathematicalAccuracy`. -/
def mathErrs (b : BillData) : List Issue :=
  (if mathSubCond b then [⟨.MATH_ERROR, .high⟩] else [])
    ++ b.items.filterMap (fun i => if mathItemCond i then some ⟨.MATH_ERROR, .medium⟩ else none)

/-- `actualTaxRate` as computed by `validateTaxCalculations`. -/
def actualTaxRate (b : BillData) : ℚ := b.tax / b.subtotal * 100

/-- The closest valid rate as computed by `validateTaxCalculations`. -/
def closestRate (b : BillData) : ℚ := findClosestTaxRate (actualTaxRate b)

/-- The condition of the invalid-tax-rate error. -/
def taxRateCond (b : BillData) : Prop := |actualTaxRate b - closestRate b| > 1 / 2

/-- The condition of the tax-amount error. -/
def taxAmtCond (b : BillData) : Prop := |b.subtotal * closestRate b / 100 - b.tax| > 1 / 100

instance (b : BillData) : Decidable (taxRateCond b) := by
  unfold taxRateCond; infer_instance

instance (b : BillData) : Decidable (taxAmtCond b) := by
  unfold taxAmtCond; infer_instance

/-- The errors pushed by `validateTaxCalculations`. -/
def taxErrs (b : BillData) : List Issue :=
  if b.tax = 0 then []
  else
    (if taxRateCond b then [⟨.TAX_ERROR, .medium⟩] else [])
      ++ (if taxAmtCond b then [⟨.TAX_ERROR, .medium⟩] else [])

/-- The warnings pushed by `validateTaxCalculations`. -/
def taxWarns (b : BillData) : List Issue :=
  if b.tax = 0 then [⟨.TAX_ERROR, .low⟩] else []

/-- The new value of the `taxValidation` flag. -/
def taxFlagNew (b : BillData) (old : Bool) : Bool :=
  if b.tax = 0 then true else (if taxRateCond b then old else true)

/-- The condition of the total-mismatch error. -/
def totalCond (b : BillData) : Prop := |b.subtotal + b.tax - b.discount - b.total| > tolerance

instance (b : BillData) : Decidable (totalCond b) := by
  unfold totalCond; infer_instance

/-- The errors pushed by `validateTotalAmount`. -/
def totalErrs (b : BillData) : List Issue :=
  (if totalCond b then [⟨.TOTAL_ERROR, .high⟩] else [])
    ++ (if b.total < 0 then [⟨.TOTAL_ERROR, .high⟩] else [])

/-- The warnings pushed by `validateTotalAmount`. -/
def totalWarns (b : BillData) : List Issue :=
  if b.total > 100000 then [⟨.TOTAL_ERROR, .low⟩] else []

/-- `daysDifference` as computed by `validateDateLogic`. -/
def daysDiffQ (now ms : ℤ) : ℚ := ((now : ℚ) - (ms : ℚ)) / (1000 * 60 * 60 * 24)

/-- The errors pushed by `validateDateLogic`: exactly the future-date error. -/
def dateErrs (now : ℤ) (b : BillData) : List Issue :=
  if b.date = "" then []
  else
    match jsDateParse b.date with
    | none => []
    | some ms => if daysDiffQ now ms < -1 then [⟨.DATE_ERROR, .high⟩] else []

/-- The warnings pushed by `validateDateLogic`. -/
def dateWarns (now : ℤ) (b : BillData) : List Issue :=
  if b.date = "" then [⟨.DATE_ERROR, .low⟩]
  else
    match jsDateParse b.date with
    | none => []
    | some ms =>
      (if daysDiffQ now ms < -1 then []
       else if daysDiffQ now ms > maxBillAge then [⟨.OLD_DATE, .low⟩] else [])
        ++ (if jsGetDay ms = 0 ∧ b.total > 1000 then [⟨.DATE_ERROR, .low⟩] else [])

/-- The duplicate-name list of `detectDuplicateItems`. -/
def dupNames (b : BillData) : List String :=
  let itemNames := b.items.map (fun i => strTrim (strLower i.name))
  (itemNames.enum.filter (fun p => itemNames.indexOf p.2 ≠ p.1)).map (·.2)

def dupWarns (b : BillData) : List Issue :=
  if (dupNames b).length > 0 then [⟨.DUPLICATE_ITEMS, .medium⟩] else []

/-- The outlier list of `detectPriceOutliers`. -/
def outlierItems (b : BillData) : List LineItem :=
  let prices := b.items.map (·.price)
  let mean := prices.foldl (· + ·) 0 / (prices.length : ℚ)
  let variance := (prices.foldl (fun s p => s + (p - mean) ^ 2) 0) / (prices.length : ℚ)
  b.items.filter
    (fun i => decide ((i.price - mean) ^ 2 > 4 * variance) && decide (i.price > maxReasonablePrice))

def outlierWarns (b : BillData) : List Issue :=
  if b.items.length < 3 then []
  else if (outlierItems b).length > 0 then [⟨.PRICE_OUTLIER, .low⟩] else []

/-- The unusual-quantity list of `analyzeQuantityPatterns`. -/
def unusualQty (b : BillData) : List LineItem :=
  b.items.filter (fun i => decide (i.quantity > 100) || decide (i.quantity ≤ 0))

def qtyWarns (b : BillData) : List Issue :=
  if (unusualQty b).length > 0 then [⟨.SUSPICIOUS_PATTERN, .low⟩] else []

/-- The all-prices-integral condition of `detectSuspiciousRounding`. -/
def roundPricesCond (b : BillData) : Prop :=
  (b.items.filter (fun i => i.price.den == 1)).length = b.items.length ∧ b.items.length > 3

/-- The round-total condition of `detectSuspiciousRounding`. -/
def roundTotalCond (b : BillData) : Prop := (b.total / 10).den = 1 ∧ b.total > 100

instance (b : BillData) : Decidable (roundPricesCond b) := by
  unfold roundPricesCond; infer_instance

instance (b : BillData) : Decidable (roundTotalCond b) := by
  unfold roundTotalCond; infer_instance

def roundWarns (b : BillData) : List Issue :=
  (if roundPricesCond b then [⟨.SUSPICIOUS_PATTERN, .low⟩] else [])
    ++ (if roundTotalCond b then [⟨.SUSPICIOUS_PATTERN, .low⟩] else [])

/-- The warnings pushed by `analyzePatterns`. -/
def patWarns (b : BillData) : List Issue :=
  dupWarns b ++ outlierWarns b ++ qtyWarns b ++ roundWarns b

/-- The errors pushed by `validateBusinessLogic`. -/
def bizErrs (b : BillData) : List Issue :=
  if b.total < 1 then [⟨.TOTAL_ERROR, .high⟩] else []

/-- The unusual-combination condition of `validateItemCombinations`. -/
def comboCond (b : BillData) : Bool :=
  (categorizeItems b.items).contains "baby" && (categorizeItems b.items).contains "alcohol"

def comboWarns (b : BillData) : List Issue :=
  if comboCond b then [⟨.SUSPICIOUS_PATTERN, .low⟩] else []

def pricingWarns (b : BillData) : List Issue :=
  (groupKeys b.items).filterMap fun key =>
    let group := b.items.filter (fun i => strLower i.name == key)
    if group.length > 1 then
      (if (firstDedup (group.map (·.unitPrice))).length > 1 then
        some ⟨.PRICE_OUTLIER, .medium⟩
       else none)
    else none

/-- The warnings pushed by `validateBusinessLogic`. -/
def bizWarns (b : BillData) : List Issue := comboWarns b ++ pricingWarns b

/-- The filtered leading-digit list of `checkBenfordsLaw`. -/
def benfordDigits (b : BillData) : List Char :=
  (b.items.map (fun i => firstDigitChar i.price)).filter (fun d => d ≠ '0')

/-- The key-reduce of `checkBenfordsLaw` picking the most common digit. -/
def benfordMost (b : BillData) (k : Char) (rest : List Char) : Char :=
  rest.foldl (fun a c => if (benfordDigits b).count a > (benfordDigits b).count c then a else c) k

def benfordWarns (b : BillData) : List Issue :=
  if b.items.length < 10 then []
  else
    match firstDedupChar (benfordDigits b) with
    | [] => []
    | k :: rest =>
      if benfordMost b k rest ≠ '1' ∧ (benfordDigits b).length > 20 then
        [⟨.SUSPICIOUS_PATTERN, .low⟩]
      else []

def timingWarns (b : BillData) : List Issue :=
  if b.date = "" then []
  else
    match jsDateParse b.date with
    | none => []
    | some ms => if jsGetHours ms < 6 ∨ jsGetHours ms > 23 then [⟨.DATE_ERROR, .low⟩] else []

/-- The warnings pushed by `detectAnomalies`. -/
def anomalyWarns (b : BillData) : List Issue := benfordWarns b ++ timingWarns b

/-- The full error list of a `validateBill` run, in push order. -/
def errorsOf (now : ℤ) (b : BillData) : List Issue :=
  mathErrs b ++ taxErrs b ++ totalErrs b ++ dateErrs now b ++ bizErrs b

/-- The full warning list of a `validateBill` run, in push order. -/
def warnsOf (now : ℤ) (b : BillData) : List Issue :=
  taxWarns b ++ totalWarns b ++ dateWarns now b ++ patWarns b ++ bizWarns b ++ anomalyWarns b

/-- The published pass/fail flags of a `validateBill` run. -/
def flagsOf (b : BillData) : AlgorithmResults :=
  { mathVerification := if mathSubCond b then false else true
    taxValidation := taxFlagNew b false
    totalCheck := if totalCond b then false else true
    dateValidation := true
    patternAnalysis := true }

/- ## Concrete scenario records -/

/-- A fixed validation clock: 2025-10-10 12:00 UTC. -/
def now0 : ℤ := (jsDateParse "2025-10-10T12:00").getD 0

/-- The single line item of the spec's scenarios. -/
def riceItem : LineItem := { name := "Rice", quantity := 1, unitPrice := 85, price := 85 }

/-- The spec's Scenario 1 receipt (consistent figures), dated four days before
`now0` at noon (a Monday) so that no date or timing warnings arise. -/
def scenario1Bill : BillData :=
  { date := "2025-10-06T12:00"
    storeName := "SUPER MARKET"
    storeAddress := ""
    billNumber := ""
    items := [riceItem]
    subtotal := 85
    tax := 425 / 100
    taxRate := 5
    discount := 0
    total := 8925 / 100
    currency := "₹"
    rawText := "" }

/-- The Scenario 1 receipt with the subtotal field printed as 90.00 (the
receipt of the claim about Scenario 2). -/
def scenario2Bill : BillData := { scenario1Bill with subtotal := 90 }

/-- The Scenario 3 receipt: printed tax 10.00 on subtotal 85 with
`taxRate` 5, total printed consistently (85 + 10 = 95). -/
def scenario3Bill : BillData := { scenario1Bill with tax := 10, total := 95 }

/-- Scenario 1 receipt dated tomorrow morning relative to `now0`
(2025-10-11 09:00, 21 hours ahead of the clock). -/
def tomorrowBill : BillData := { scenario1Bill with date := "2025-10-11T09:00" }

/-- Scenario 1 receipt dated ten days after `now0`. -/
def farFutureBill : BillData := { scenario1Bill with date := "2025-10-20T12:00" }

/-- A subtotal deviating from the item sum by exactly 0.01. -/
def boundary001Bill : BillData := { scenario1Bill with subtotal := 85 + 1 / 100 }

/-- A subtotal deviating from the item sum by 0.011. -/
def boundary0011Bill : BillData := { scenario1Bill with subtotal := 85 + 11 / 1000 }

/-- The all-default/zero receipt. -/
def zeroBill : BillData :=
  { date := ""
    storeName := ""
    storeAddress := ""
    billNumber := ""
    items := []
    subtotal := 0
    tax := 0
    taxRate := 0
    discount := 0
    total := 0
    currency := "₹"
    rawText := "" }

/-- Raw text whose subtotal and total are not printed and must be derived. -/
def derivedRaw : String := "MY STORE\nITEM LIST\nRice ₹85.00\nTea ₹10.50"

/-- Raw text containing an item line with an explicit zero quantity marker. -/
def zeroQtyRaw : String := "ITEM LIST\nSoap 0 pcs ₹45.00"

/- ## Lemmas: how each check transforms the validation object -/

theorem foldl_pushErrorIf {α : Type} (p : α → Prop) [DecidablePred p] (iss : Issue)
    (l : List α) (v : Validation) :
    l.foldl (fun w a => if p a then pushError w iss else w) v
      = { v with errors := v.errors ++ l.filterMap (fun a => if p a then some iss else none) } := by
  induction l generalizing v with
  | nil => simp
  | cons a t ih =>
    simp only [List.foldl_cons, List.filterMap_cons]
    by_cases h : p a
    · simp only [if_pos h, ih]
      simp [pushError, List.append_assoc]
    · simp only [if_neg h, ih]

theorem foldl_pushWarningIf {α : Type} (p : α → Prop) [DecidablePred p] (iss : Issue)
    (l : List α) (v : Validation) :
    l.foldl (fun w a => if p a then pushWarning w iss else w) v
      = { v with warnings := v.warnings ++ l.filterMap (fun a => if p a then some iss else none) } := by
  induction l generalizing v with
  | nil => simp
  | cons a t ih =>
    simp only [List.foldl_cons, List.filterMap_cons]
    by_cases h : p a
    · simp only [if_pos h, ih]
      simp [pushWarning, List.append_assoc]
    · simp only [if_neg h, ih]

theorem validateMathematicalAccuracy_spec (b : BillData) (v : Validation) :
    validateMathematicalAccuracy b v =
      { v with
        errors := v.errors ++ mathErrs b
        algorithmResults := { v.algorithmResults with
          mathVerification :=
            if mathSubCond b then v.algorithmResults.mathVerification else true } } := by
  unfold validateMathematicalAccuracy
  rw [foldl_pushErrorIf (fun item : LineItem => |item.quantity * item.unitPrice - item.price| > tolerance)]
  simp only [mathErrs, mathSubCond, mathItemCond]
  by_cases h : |calculatedSubtotal b - b.subtotal| > tolerance
  · simp [h, pushError]
  · simp [h]

theorem validateTaxCalculations_spec (b : BillData) (v : Validation) :
    validateTaxCalculations b v =
      { v with
        errors := v.errors ++ taxErrs b
        warnings := v.warnings ++ taxWarns b
        algorithmResults := { v.algorithmResults with
          taxValidation := taxFlagNew b v.algorithmResults.taxValidation } } := by
  unfold validateTaxCalculations taxErrs taxWarns taxFlagNew taxRateCond taxAmtCond closestRate
  simp only [actualTaxRate]
  by_cases h0 : b.tax = 0
  · simp [h0, pushWarning]
  · simp only [if_neg h0]
    split_ifs <;> simp [pushError, pushWarning, List.append_assoc]

theorem validateTotalAmount_spec (b : BillData) (v : Validation) :
    validateTotalAmount b v =
      { v with
        errors := v.errors ++ totalErrs b
        warnings := v.warnings ++ totalWarns b
        algorithmResults := { v.algorithmResults with
          totalCheck := if totalCond b then v.algorithmResults.totalCheck else true } } := by
  have e : validateTotalAmount b v =
      (let v1 :=
        if totalCond b then pushError v ⟨.TOTAL_ERROR, .high⟩
        else { v with algorithmResults := { v.algorithmResults with totalCheck := true } }
       let v2 := if b.total < 0 then pushError v1 ⟨.TOTAL_ERROR, .high⟩ else v1
       if b.total > 100000 then pushWarning v2 ⟨.TOTAL_ERROR, .low⟩ else v2) := rfl
  rw [e]
  unfold totalErrs totalWarns
  split_ifs <;> simp [pushError, pushWarning, List.append_assoc]

theorem validateDateLogic_spec (now : ℤ) (b : BillData) (v : Validation) :
    validateDateLogic now b v =
      { v with
        errors := v.errors ++ dateErrs now b
        warnings := v.warnings ++ dateWarns now b
        algorithmResults := { v.algorithmResults with dateValidation := true } } := by
  have e : validateDateLogic now b v =
      (if b.date = "" then
        let v1 := pushWarning v ⟨.DATE_ERROR, .low⟩
        { v1 with algorithmResults := { v1.algorithmResults with dateValidation := true } }
      else
        match jsDateParse b.date with
        | none =>
          { v with algorithmResults := { v.algorithmResults with dateValidation := true } }
        | some ms =>
          let v1 :=
            if daysDiffQ now ms < -1 then pushError v ⟨.DATE_ERROR, .high⟩
            else if daysDiffQ now ms > maxBillAge then pushWarning v ⟨.OLD_DATE, .low⟩
            else v
          let v2 :=
            if jsGetDay ms = 0 ∧ b.total > 1000 then pushWarning v1 ⟨.DATE_ERROR, .low⟩
            else v1
          { v2 with algorithmResults := { v2.algorithmResults with dateValidation := true } }) := rfl
  rw [e]
  unfold dateErrs dateWarns
  by_cases h0 : b.date = ""
  · simp [h0, pushWarning]
  · simp only [if_neg h0]
    cases h : jsDateParse b.date with
    | none => simp
    | some ms =>
      dsimp only
      split_ifs <;> simp [pushError, pushWarning, List.append_assoc]

theorem detectDuplicateItems_spec (b : BillData) (v : Validation) :
    detectDuplicateItems b v = { v with warnings := v.warnings ++ dupWarns b } := by
  have e : detectDuplicateItems b v =
      (if (dupNames b).length > 0 then pushWarning v ⟨.DUPLICATE_ITEMS, .medium⟩ else v) := rfl
  rw [e]
  unfold dupWarns
  split_ifs <;> simp [pushWarning]

theorem detectPriceOutliers_spec (b : BillData) (v : Validation) :
    detectPriceOutliers b v = { v with warnings := v.warnings ++ outlierWarns b } := by
  have e : detectPriceOutliers b v =
      (if b.items.length < 3 then v
       else if (outlierItems b).length > 0 then pushWarning v ⟨.PRICE_OUTLIER, .low⟩ else v) := rfl
  rw [e]
  unfold outlierWarns
  split_ifs <;> simp [pushWarning]

theorem analyzeQuantityPatterns_spec (b : BillData) (v : Validation) :
    analyzeQuantityPatterns b v = { v with warnings := v.warnings ++ qtyWarns b } := by
  have e : analyzeQuantityPatterns b v =
      (if (unusualQty b).length > 0 then pushWarning v ⟨.SUSPICIOUS_PATTERN, .low⟩ else v) := rfl
  rw [e]
  unfold qtyWarns
  split_ifs <;> simp [pushWarning]

theorem detectSuspiciousRounding_spec (b : BillData) (v : Validation) :
    detectSuspiciousRounding b v = { v with warnings := v.warnings ++ roundWarns b } := by
  have e : detectSuspiciousRounding b v =
      (let v1 := if roundPricesCond b then pushWarning v ⟨.SUSPICIOUS_PATTERN, .low⟩ else v
       if roundTotalCond b then pushWarning v1 ⟨.SUSPICIOUS_PATTERN, .low⟩ else v1) := rfl
  rw [e]
  unfold roundWarns
  split_ifs <;> simp [pushWarning, List.append_assoc]

theorem analyzePatterns_spec (b : BillData) (v : Validation) :
    analyzePatterns b v =
      { v with
        warnings := v.warnings ++ patWarns b
        algorithmResults := { v.algorithmResults with patternAnalysis := true } } := by
  unfold analyzePatterns
  dsimp only
  rw [detectDuplicateItems_spec, detectPriceOutliers_spec, analyzeQuantityPatterns_spec,
    detectSuspiciousRounding_spec]
  simp [patWarns, List.append_assoc]

theorem validateItemCombinations_spec (b : BillData) (v : Validation) :
    validateItemCombinations b v = { v with warnings := v.warnings ++ comboWarns b } := by
  have e : validateItemCombinations b v =
      (if comboCond b then pushWarning v ⟨.SUSPICIOUS_PATTERN, .low⟩ else v) := rfl
  rw [e]
  unfold comboWarns
  split_ifs <;> simp [pushWarning]

theorem foldl_pricing (b : BillData) (keys : List String) (v : Validation) :
    keys.foldl
      (fun v key =>
        let group := b.items.filter (fun i => strLower i.name == key)
        if group.length > 1 then
          (if (firstDedup (group.map (·.unitPrice))).length > 1 then
            pushWarning v ⟨.PRICE_OUTLIER, .medium⟩
           else v)
        else v)
      v
      = { v with
          warnings := v.warnings ++ keys.filterMap fun key =>
            let group := b.items.filter (fun i => strLower i.name == key)
            if group.length > 1 then
              (if (firstDedup (group.map (·.unitPrice))).length > 1 then
                some ⟨.PRICE_OUTLIER, .medium⟩
               else none)
            else none } := by
  induction keys generalizing v with
  | nil => simp
  | cons k t ih =>
    simp only [List.foldl_cons, List.filterMap_cons]
    by_cases h1 : (b.items.filter (fun i => strLower i.name == k)).length > 1
    · by_cases h2 :
        (firstDedup ((b.items.filter (fun i => strLower i.name == k)).map (·.unitPrice))).length > 1
      · simp only [if_pos h1, if_pos h2, ih]
        simp [pushWarning, List.append_assoc]
      · simp only [if_pos h1, if_neg h2, ih]
    · simp only [if_neg h1, ih]

theorem validatePricingConsistency_spec (b : BillData) (v : Validation) :
    validatePricingConsistency b v = { v with warnings := v.warnings ++ pricingWarns b } := by
  unfold validatePricingConsistency pricingWarns
  exact foldl_pricing b (groupKeys b.items) v

theorem validateBusinessLogic_spec (b : BillData) (v : Validation) :
    validateBusinessLogic b v =
      { v with
        errors := v.errors ++ bizErrs b
        warnings := v.warnings ++ bizWarns b } := by
  unfold validateBusinessLogic bizErrs bizWarns
  by_cases h : b.total < 1
  · simp only [if_pos h]
    rw [validateItemCombinations_spec, validatePricingConsistency_spec]
    simp [pushError, List.append_assoc]
  · simp only [if_neg h]
    rw [validateItemCombinations_spec, validatePricingConsistency_spec]
    simp [List.append_assoc]

theorem checkBenfordsLaw_spec (b : BillData) (v : Validation) :
    checkBenfordsLaw b v = { v with warnings := v.warnings ++ benfordWarns b } := by
  have e : checkBenfordsLaw b v =
      (if b.items.length < 10 then v
       else
        match firstDedupChar (benfordDigits b) with
        | [] => v
        | k :: rest =>
          if benfordMost b k rest ≠ '1' ∧ (benfordDigits b).length > 20 then
            pushWarning v ⟨.SUSPICIOUS_PATTERN, .low⟩
          else v) := rfl
  rw [e]
  unfold benfordWarns
  by_cases h0 : b.items.length < 10
  · simp [h0]
  · simp only [if_neg h0]
    cases h : firstDedupChar (benfordDigits b) with
    | nil => simp
    | cons k rest =>
      dsimp only
      split_ifs <;> simp [pushWarning]

theorem checkTimingAnomalies_spec (b : BillData) (v : Validation) :
    checkTimingAnomalies b v = { v with warnings := v.warnings ++ timingWarns b } := by
  unfold checkTimingAnomalies timingWarns
  by_cases h0 : b.date = ""
  · simp [h0]
  · simp only [if_neg h0]
    cases h : jsDateParse b.date with
    | none => simp
    | some ms =>
      dsimp only
      split_ifs <;> simp [pushWarning]

theorem detectAnomalies_spec (b : BillData) (v : Validation) :
    detectAnomalies b v = { v with warnings := v.warnings ++ anomalyWarns b } := by
  unfold detectAnomalies anomalyWarns
  rw [checkBenfordsLaw_spec, checkTimingAnomalies_spec]
  simp [List.append_assoc]

/- ## Master characterisation of `validateBill` -/

theorem validateBill_errors (now : ℤ) (b : BillData) :
    (validateBill now b).errors = errorsOf now b := by
  unfold validateBill validateBillBody initialValidation
  dsimp only
  rw [validateMathematicalAccuracy_spec, validateTaxCalculations_spec, validateTotalAmount_spec,
    validateDateLogic_spec, analyzePatterns_spec, validateBusinessLogic_spec, detectAnomalies_spec]
  simp [errorsOf, List.append_assoc]

theorem validateBill_warnings (now : ℤ) (b : BillData) :
    (validateBill now b).warnings = warnsOf now b := by
  unfold validateBill validateBillBody initialValidation
  dsimp only
  rw [validateMathematicalAccuracy_spec, validateTaxCalculations_spec, validateTotalAmount_spec,
    validateDateLogic_spec, analyzePatterns_spec, validateBusinessLogic_spec, detectAnomalies_spec]
  simp [warnsOf, List.append_assoc]

theorem validateBill_flags (now : ℤ) (b : BillData) :
    (validateBill now b).algorithmResults = flagsOf b := by
  unfold validateBill validateBillBody initialValidation
  dsimp only
  rw [validateMathematicalAccuracy_spec, validateTaxCalculations_spec, validateTotalAmount_spec,
    validateDateLogic_spec, analyzePatterns_spec, validateBusinessLogic_spec, detectAnomalies_spec]
  simp [flagsOf]

theorem validateBill_isValid (now : ℤ) (b : BillData) :
    (validateBill now b).isValid = (errorsOf now b).isEmpty := by
  unfold validateBill validateBillBody initialValidation
  dsimp only
  rw [validateMathematicalAccuracy_spec, validateTaxCalculations_spec, validateTotalAmount_spec,
    validateDateLogic_spec, analyzePatterns_spec, validateBusinessLogic_spec, detectAnomalies_spec]
  simp [errorsOf, List.append_assoc]

/- ## Filtering the error list by issue type -/

theorem filter_type_of_all {l : List Issue} {t : IssueType} (h : ∀ e ∈ l, e.type ≠ t) :
    l.filter (fun e => e.type == t) = [] := by
  induction l with
  | nil => rfl
  | cons x xs ih =>
    have hx : (x.type == t) = false := by
      simpa using h x (by simp)
    simp only [List.filter_cons, hx, Bool.false_eq_true, if_false]
    exact ih fun e he => h e (by simp [he])

theorem filter_type_all_eq {l : List Issue} {t : IssueType} (h : ∀ e ∈ l, e.type = t) :
    l.filter (fun e => e.type == t) = l := by
  induction l with
  | nil => rfl
  | cons x xs ih =>
    have hx : (x.type == t) = true := by
      simpa using h x (by simp)
    simp only [List.filter_cons, hx, if_true]
    rw [ih fun e he => h e (by simp [he])]

theorem mathErrs_type (b : BillData) : ∀ e ∈ mathErrs b, e.type = .MATH_ERROR := by
  intro e he
  unfold mathErrs at he
  rcases List.mem_append.1 he with h | h
  · split_ifs at h <;> simp_all
  · rcases List.mem_filterMap.1 h with ⟨i, _, hi⟩
    split_ifs at hi
    injection hi with hi2
    subst hi2
    rfl

theorem taxErrs_type (b : BillData) : ∀ e ∈ taxErrs b, e.type = .TAX_ERROR := by
  intro e he
  unfold taxErrs at he
  split_ifs at he <;> simp_all

theorem totalErrs_type (b : BillData) : ∀ e ∈ totalErrs b, e.type = .TOTAL_ERROR := by
  intro e he
  unfold totalErrs at he
  rcases List.mem_append.1 he with h | h <;> (split_ifs at h <;> simp_all)

theorem dateErrs_type (now : ℤ) (b : BillData) : ∀ e ∈ dateErrs now b, e.type = .DATE_ERROR := by
  intro e he
  unfold dateErrs at he
  split_ifs at he
  · simp_all
  · rcases h : jsDateParse b.date with _ | ms <;> rw [h] at he <;> dsimp only at he
    · simp_all
    · split_ifs at he <;> simp_all

theorem bizErrs_type (b : BillData) : ∀ e ∈ bizErrs b, e.type = .TOTAL_ERROR := by
  intro e he
  unfold bizErrs at he
  split_ifs at he <;> simp_all

theorem errors_filter_tax (now : ℤ) (b : BillData) :
    (validateBill now b).errors.filter (fun e => e.type == IssueType.TAX_ERROR) = taxErrs b := by
  rw [validateBill_errors]
  unfold errorsOf
  simp only [List.filter_append]
  rw [filter_type_of_all fun e he => by simp [mathErrs_type b e he],
    filter_type_all_eq (taxErrs_type b),
    filter_type_of_all fun e he => by simp [totalErrs_type b e he],
    filter_type_of_all fun e he => by simp [dateErrs_type now b e he],
    filter_type_of_all fun e he => by simp [bizErrs_type b e he]]
  simp

theorem errors_filter_math (now : ℤ) (b : BillData) :
    (validateBill now b).errors.filter (fun e => e.type == IssueType.MATH_ERROR) = mathErrs b := by
  rw [validateBill_errors]
  unfold errorsOf
  simp only [List.filter_append]
  rw [filter_type_all_eq (mathErrs_type b),
    filter_type_of_all fun e he => by simp [taxErrs_type b e he],
    filter_type_of_all fun e he => by simp [totalErrs_type b e he],
    filter_type_of_all fun e he => by simp [dateErrs_type now b e he],
    filter_type_of_all fun e he => by simp [bizErrs_type b e he]]
  simp

/- ## Cent-valued arithmetic: the parser only produces multiples of 0.01 -/

theorem isCent_zero : IsCent 0 := ⟨0, by norm_num⟩

theorem isCent_add {p q : ℚ} (hp : IsCent p) (hq : IsCent q) : IsCent (p + q) := by
  obtain ⟨m, rfl⟩ := hp
  obtain ⟨n, rfl⟩ := hq
  exact ⟨m + n, by push_cast; ring⟩

theorem isCent_sub {p q : ℚ} (hp : IsCent p) (hq : IsCent q) : IsCent (p - q) := by
  obtain ⟨m, rfl⟩ := hp
  obtain ⟨n, rfl⟩ := hq
  exact ⟨m - n, by push_cast; ring⟩

theorem round2_isCent (q : ℚ) : IsCent (round2 q) := by
  unfold round2 round2nn
  split_ifs
  · exact ⟨-⌊-q * 100 + 1 / 2⌋, by push_cast; ring⟩
  · exact ⟨⌊q * 100 + 1 / 2⌋, rfl⟩

theorem round2nn_int (m : ℤ) : round2nn ((m : ℚ) / 100) = (m : ℚ) / 100 := by
  unfold round2nn
  have h1 : (m : ℚ) / 100 * 100 + 1 / 2 = (m : ℚ) + 1 / 2 := by ring
  rw [h1, show ⌊(m : ℚ) + 1 / 2⌋ = m + ⌊(1 : ℚ) / 2⌋ from Int.floor_int_add m (1 / 2),
    show ⌊(1 : ℚ) / 2⌋ = 0 by decide]
  push_cast
  ring

theorem round2_eq_self {q : ℚ} (h : IsCent q) : round2 q = q := by
  obtain ⟨n, rfl⟩ := h
  unfold round2
  split_ifs with hneg
  · rw [show -((n : ℚ) / 100) = ((-n : ℤ) : ℚ) / 100 by push_cast; ring, round2nn_int]
    push_cast
    ring
  · exact round2nn_int n

theorem foldl_price_cent (items : List LineItem) (h : ∀ i ∈ items, IsCent i.price)
    (acc : ℚ) (hacc : IsCent acc) :
    IsCent (items.foldl (fun s i => s + i.price) acc) := by
  induction items generalizing acc with
  | nil => exact hacc
  | cons i t ih =>
    simp only [List.foldl_cons]
    exact ih (fun j hj => h j (by simp [hj])) _ (isCent_add hacc (h i (by simp)))

theorem scanNum_isCent {l m : List Char} {q : ℚ} {r : List Char}
    (h : scanNum l = some (m, q, r)) : IsCent q := by
  unfold scanNum at h
  by_cases hd : (l.takeWhile Char.isDigit).isEmpty
  · simp [hd] at h
  · simp only [hd, if_false, Bool.false_eq_true] at h
    rcases h1 : scanCommaGroups (l.drop (l.takeWhile Char.isDigit).length) with ⟨mc, cds, r2⟩
    rw [h1] at h
    rcases h2 : scanFrac r2 with ⟨mf, frac, r3⟩
    rw [h2] at h
    dsimp only at h
    injection h with h3
    have hq := congrArg (fun p : List Char × ℚ × List Char => p.2.1) h3
    dsimp only at hq
    exact ⟨100 * (digitsToNat (l.takeWhile Char.isDigit ++ cds) : ℤ) + (frac : ℤ), by
      rw [← hq]
      push_cast
      ring⟩

theorem matchRupeePrefix_isCent {l : List Char} {q : ℚ} {r : List Char}
    (h : matchRupeePrefix l = some (q, r)) : IsCent q := by
  unfold matchRupeePrefix at h
  split at h
  · split at h
    case _ m2 q2 r2 hs =>
      injection h with h2
      rw [show q = q2 from (congrArg Prod.fst h2).symm]
      exact scanNum_isCent hs
    case _ => exact absurd h (by simp)
  · exact absurd h (by simp)

theorem matchRsPrefix_isCent {l : List Char} {q : ℚ} {r : List Char}
    (h : matchRsPrefix l = some (q, r)) : IsCent q := by
  unfold matchRsPrefix at h
  split at h
  · dsimp only at h
    split at h
    case _ m2 q2 r2 hs =>
      injection h with h2
      rw [show q = q2 from (congrArg Prod.fst h2).symm]
      exact scanNum_isCent hs
    case _ => exact absurd h (by simp)
  · exact absurd h (by simp)

theorem matchINRPrefix_isCent {l : List Char} {q : ℚ} {r : List Char}
    (h : matchINRPrefix l = some (q, r)) : IsCent q := by
  unfold matchINRPrefix at h
  split at h
  · split at h
    case _ m2 q2 r2 hs =>
      injection h with h2
      rw [show q = q2 from (congrArg Prod.fst h2).symm]
      exact scanNum_isCent hs
    case _ => exact absurd h (by simp)
  · exact absurd h (by simp)

theorem matchNumSuffix_isCent {l : List Char} {q : ℚ} {r : List Char}
    (h : matchNumSuffix l = some (q, r)) : IsCent q := by
  unfold matchNumSuffix at h
  split at h
  case _ m2 q2 r2 hs =>
    split at h
    · injection h with h2
      rw [show q = q2 from (congrArg Prod.fst h2).symm]
      exact scanNum_isCent hs
    · exact absurd h (by simp)
  case _ => exact absurd h (by simp)

theorem allMatchesAux_isCent {matcher : List Char → Option (ℚ × List Char)}
    (hm : ∀ l q r, matcher l = some (q, r) → IsCent q) :
    ∀ (fuel : ℕ) (l : List Char) (q : ℚ), q ∈ allMatchesAux matcher fuel l → IsCent q := by
  intro fuel
  induction fuel with
  | zero =>
    intro l q hq
    simp [allMatchesAux] at hq
  | succ n ih =>
    intro l q hq
    cases l with
    | nil => simp [allMatchesAux] at hq
    | cons c rest =>
      rw [allMatchesAux] at hq
      rcases hmatch : matcher (c :: rest) with _ | ⟨q2, r2⟩ <;> rw [hmatch] at hq
      · exact ih rest q hq
      · rcases List.mem_cons.1 hq with rfl | hq2
        · exact hm _ _ _ hmatch
        · exact ih r2 q hq2

theorem extractPriceFromLine_isCent {line : String} {p : ℚ}
    (h : extractPriceFromLine line = some p) : IsCent p := by
  unfold extractPriceFromLine at h
  dsimp only at h
  have last_mem : ∀ (l : List ℚ) (x : ℚ), l.getLast? = some x → x ∈ l := by
    intro l x hx
    exact List.mem_of_mem_getLast? (by simp [hx])
  split at h
  case _ q1 hq1 =>
    injection h with h2
    subst h2
    exact allMatchesAux_isCent (fun l q r hm => matchRupeePrefix_isCent hm) _ _ _
      (last_mem _ _ hq1)
  case _ =>
    split at h
    case _ q1 hq1 =>
      injection h with h2
      subst h2
      exact allMatchesAux_isCent (fun l q r hm => matchRsPrefix_isCent hm) _ _ _
        (last_mem _ _ hq1)
    case _ =>
      split at h
      case _ q1 hq1 =>
        injection h with h2
        subst h2
        exact allMatchesAux_isCent (fun l q r hm => matchINRPrefix_isCent hm) _ _ _
          (last_mem _ _ hq1)
      case _ =>
        exact allMatchesAux_isCent (fun l q r hm => matchNumSuffix_isCent hm) _ _ _
          (last_mem _ _ h)

theorem applySubtotalLine_fields (b : BillData) (line : String) :
    (applySubtotalLine b line).items = b.items ∧ (applySubtotalLine b line).tax = b.tax ∧
      (applySubtotalLine b line).discount = b.discount := by
  unfold applySubtotalLine
  rcases hp : extractPriceFromLine line with _ | p <;> dsimp only <;>
    split_ifs <;> exact ⟨rfl, rfl, rfl⟩

theorem applyTaxLine_fields (b : BillData) (line : String) :
    (applyTaxLine b line).items = b.items ∧ (applyTaxLine b line).discount = b.discount ∧
      (IsCent b.tax → IsCent (applyTaxLine b line).tax) := by
  unfold applyTaxLine
  rcases hp : extractPriceFromLine line with _ | p
  · dsimp only
    split_ifs <;> exact ⟨rfl, rfl, fun ht => ht⟩
  · have hpc := extractPriceFromLine_isCent hp
    rcases hr : firstMatchC matchPercentAt line.toList with _ | rate <;>
      dsimp only <;> split_ifs <;>
      refine ⟨rfl, rfl, fun ht => ?_⟩ <;>
      first
        | exact ht
        | exact isCent_add ht hpc

theorem applyDiscountLine_fields (b : BillData) (line : String) :
    (applyDiscountLine b line).items = b.items ∧ (applyDiscountLine b line).tax = b.tax ∧
      (IsCent b.discount → IsCent (applyDiscountLine b line).discount) := by
  unfold applyDiscountLine
  rcases hp : extractPriceFromLine line with _ | p
  · dsimp only
    split_ifs <;> exact ⟨rfl, rfl, fun hd => hd⟩
  · have hpc := extractPriceFromLine_isCent hp
    dsimp only
    split_ifs <;>
      refine ⟨rfl, rfl, fun hd => ?_⟩ <;>
      first
        | exact hd
        | exact hpc

theorem applyTotalLine_fields (b : BillData) (line : String) :
    (applyTotalLine b line).items = b.items ∧ (applyTotalLine b line).tax = b.tax ∧
      (applyTotalLine b line).discount = b.discount := by
  unfold applyTotalLine
  rcases hp : extractPriceFromLine line with _ | p <;> dsimp only <;>
    split_ifs <;> exact ⟨rfl, rfl, rfl⟩

theorem applyFinancialLine_fields (b : BillData) (line : String) :
    (applyFinancialLine b line).items = b.items ∧
      (IsCent b.tax → IsCent (applyFinancialLine b line).tax) ∧
      (IsCent b.discount → IsCent (applyFinancialLine b line).discount) := by
  obtain ⟨s1i, s1t, s1d⟩ := applySubtotalLine_fields b line
  obtain ⟨t1i, t1d, t1t⟩ := applyTaxLine_fields (applySubtotalLine b line) line
  obtain ⟨d1i, d1t, d1d⟩ := applyDiscountLine_fields (applyTaxLine (applySubtotalLine b line) line) line
  obtain ⟨f1i, f1t, f1d⟩ := applyTotalLine_fields
    (applyDiscountLine (applyTaxLine (applySubtotalLine b line) line) line) line
  unfold applyFinancialLine
  refine ⟨?_, fun ht => ?_, fun hd => ?_⟩
  · rw [f1i, d1i, t1i, s1i]
  · rw [f1t, d1t]
    exact t1t (by rw [s1t]; exact ht)
  · rw [f1d]
    exact d1d (by rw [t1d, s1d]; exact hd)

theorem extractFinancialTotals_fields :
    ∀ (lines : List String) (b : BillData), IsCent b.tax → IsCent b.discount →
      (extractFinancialTotals lines b).items = b.items ∧
        IsCent (extractFinancialTotals lines b).tax ∧
        IsCent (extractFinancialTotals lines b).discount := by
  intro lines
  induction lines with
  | nil => exact fun b ht hd => ⟨rfl, ht, hd⟩
  | cons line rest ih =>
    intro b ht hd
    obtain ⟨hi, h2, h3⟩ := applyFinancialLine_fields b line
    obtain ⟨ih1, ih2, ih3⟩ := ih (applyFinancialLine b line) (h2 ht) (h3 hd)
    exact ⟨ih1.trans hi, ih2, ih3⟩

theorem parseItemLine_price_isCent {line : String} {item : LineItem}
    (h : parseItemLine line = some item) : IsCent item.price := by
  unfold parseItemLine at h
  split at h
  case _ => exact absurd h (by simp)
  case _ p hp =>
    dsimp only at h
    split_ifs at h
    injection h with h2
    rw [← h2]
    exact round2_isCent p

theorem extractItems_price_isCent (lines : List String) :
    ∀ i ∈ extractItems lines, IsCent i.price := by
  intro i hi
  unfold extractItems at hi
  dsimp only at hi
  rcases List.mem_filterMap.1 hi with ⟨line, _, hline⟩
  exact parseItemLine_price_isCent hline

theorem deriveSubtotal_eq (b : BillData) (h1 : b.subtotal = 0) :
    deriveSubtotal b = { b with subtotal := b.items.foldl (fun s i => s + i.price) 0 } := by
  unfold deriveSubtotal
  by_cases hlen : b.items.length > 0
  · rw [if_pos ⟨h1, hlen⟩]
  · rw [if_neg (fun hc => hlen hc.2)]
    have hnil : b.items = [] := List.length_eq_zero.1 (by omega)
    rw [show b.items.foldl (fun s i => s + i.price) 0 = 0 from by rw [hnil]; rfl, ← h1]

theorem deriveTaxRate_fields (b : BillData) :
    (deriveTaxRate b).items = b.items ∧ (deriveTaxRate b).subtotal = b.subtotal ∧
      (deriveTaxRate b).tax = b.tax ∧ (deriveTaxRate b).discount = b.discount ∧
      (deriveTaxRate b).total = b.total := by
  unfold deriveTaxRate
  split_ifs <;> exact ⟨rfl, rfl, rfl, rfl, rfl⟩

theorem deriveTotal_eq (b : BillData) (h : b.total = 0) :
    deriveTotal b = { b with total := b.subtotal + b.tax - b.discount } := by
  unfold deriveTotal
  rw [if_pos h]

theorem calculateDerivedValues_fields (b : BillData) (h1 : b.subtotal = 0) (h2 : b.total = 0)
    (hts : IsCent b.tax) (hds : IsCent b.discount) (hit : ∀ i ∈ b.items, IsCent i.price) :
    (calculateDerivedValues b).items = b.items ∧
      (calculateDerivedValues b).subtotal = b.items.foldl (fun s i => s + i.price) 0 ∧
      (calculateDerivedValues b).tax = b.tax ∧
      (calculateDerivedValues b).discount = b.discount ∧
      (calculateDerivedValues b).total =
        b.items.foldl (fun s i => s + i.price) 0 + b.tax - b.discount := by
  have hS : IsCent (b.items.foldl (fun s i => s + i.price) 0) :=
    foldl_price_cent b.items hit 0 isCent_zero
  have e1 := deriveSubtotal_eq b h1
  obtain ⟨f2i, f2s, f2t, f2d, f2tt⟩ := deriveTaxRate_fields (deriveSubtotal b)
  have h2' : (deriveTaxRate (deriveSubtotal b)).total = 0 := by
    rw [f2tt, e1]
    exact h2
  have e3 := deriveTotal_eq _ h2'
  unfold calculateDerivedValues roundFields
  rw [e3]
  refine ⟨?_, ?_, ?_, ?_, ?_⟩
  · dsimp only
    rw [f2i, e1]
  · dsimp only
    rw [f2s, e1]
    exact round2_eq_self hS
  · dsimp only
    rw [f2t, e1]
    exact round2_eq_self hts
  · dsimp only
    rw [f2d, e1]
    exact round2_eq_self hds
  · dsimp only
    rw [f2s, f2t, f2d, e1]
    exact round2_eq_self (isCent_sub (isCent_add hS hts) hds)

theorem parsePre_cent (raw : String) :
    IsCent (parsePre raw).tax ∧ IsCent (parsePre raw).discount ∧
      (∀ i ∈ (parsePre raw).items, IsCent i.price) := by
  unfold parsePre
  obtain ⟨hi, ht, hd⟩ :=
    extractFinancialTotals_fields (preprocessText raw)
      (initialBillData raw (preprocessText raw)) isCent_zero isCent_zero
  refine ⟨ht, hd, ?_⟩
  rw [hi]
  exact extractItems_price_isCent (preprocessText raw)

theorem errors_filter_date (now : ℤ) (b : BillData) :
    (validateBill now b).errors.filter (fun e => e.type == IssueType.DATE_ERROR) = dateErrs now b := by
  rw [validateBill_errors]
  unfold errorsOf
  simp only [List.filter_append]
  rw [filter_type_of_all fun e he => by simp [mathErrs_type b e he],
    filter_type_of_all fun e he => by simp [taxErrs_type b e he],
    filter_type_of_all fun e he => by simp [totalErrs_type b e he],
    filter_type_all_eq (dateErrs_type now b),
    filter_type_of_all fun e he => by simp [bizErrs_type b e he]]
  simp

/- ## Remaining supporting lemmas -/

/-- The `reduce` of `findClosestTaxRate` returns a member of the rate table
that minimises the distance to `actualRate`. -/
theorem findClosestTaxRate_nearest (a : ℚ) :
    findClosestTaxRate a ∈ indianTaxRates ∧
      ∀ r ∈ indianTaxRates, |findClosestTaxRate a - a| ≤ |r - a| := by
  unfold findClosestTaxRate indianTaxRates
  simp only [List.foldl_cons, List.foldl_nil]
  split_ifs <;>
    refine ⟨by simp, ?_⟩ <;>
    · intro r hr
      simp only [List.mem_cons, List.not_mem_nil, or_false] at hr
      rcases hr with rfl | rfl | rfl | rfl | rfl <;> linarith

/-- The derivation pass never touches the item list. -/
theorem calculateDerivedValues_items (b : BillData) :
    (calculateDerivedValues b).items = b.items := by
  unfold calculateDerivedValues
  have h1 : ∀ c : BillData, (roundFields c).items = c.items := fun c => rfl
  have h2 : ∀ c : BillData, (deriveTotal c).items = c.items := by
    intro c; unfold deriveTotal; split_ifs <;> rfl
  have h3 : ∀ c : BillData, (deriveSubtotal c).items = c.items := by
    intro c; unfold deriveSubtotal; split_ifs <;> rfl
  rw [h1, h2, (deriveTaxRate_fields _).1, h3]

/-- The financial-totals pass never touches the item list, so the bill record
entering `calculateDerivedValues` carries exactly the extracted items. -/
theorem parsePre_items (raw : String) :
    (parsePre raw).items = extractItems (preprocessText raw) :=
  (extractFinancialTotals_fields (preprocessText raw)
    (initialBillData raw (preprocessText raw)) isCent_zero isCent_zero).1

/- ## The claims -/

/-- C1, counterexample: on the Scenario 2 receipt (subtotal printed as 90.00)
the validator does emit a high-severity `MATH_ERROR` and `isValid = false`,
but the confidence score is not 75. -/
theorem c1_counterexample :
    (⟨.MATH_ERROR, .high⟩ : Issue) ∈ (validateBill now0 scenario2Bill).errors ∧
      (validateBill now0 scenario2Bill).isValid = false ∧
      (validateBill now0 scenario2Bill).confidenceScore ≠ 75 := by
  decide

/-- C1 (corrected): on the Scenario 2 receipt the error list is exactly
`MATH_ERROR` (high), `TAX_ERROR` (medium), `TOTAL_ERROR` (high) — the wrong
printed subtotal also breaks the tax-amount and the total check — so with the
per-issue penalties of the spec's table (error high −25, medium −15, low −5;
warning high −10, medium −5) the score is 100 − 25 − 15 − 25 = 35, and
`isValid = false`. -/
theorem c1_scenario2 :
    (validateBill now0 scenario2Bill).errors =
        [⟨.MATH_ERROR, .high⟩, ⟨.TAX_ERROR, .medium⟩, ⟨.TOTAL_ERROR, .high⟩] ∧
      (validateBill now0 scenario2Bill).isValid = false ∧
      (validateBill now0 scenario2Bill).confidenceScore = 35 ∧
      (validateBill now0 scenario2Bill).warnings = [] ∧
      errorPenalty .high = 25 ∧ errorPenalty .medium = 15 ∧ errorPenalty .low = 5 ∧
      warningPenalty .high = 10 ∧ warningPenalty .medium = 5 := by
  decide

/-- C2: for a bill with non-zero subtotal and non-zero tax the `TAX_ERROR`
errors are exactly one medium error when `|actualRate − closest| > 0.5` plus
one independent medium error when `|subtotal × closest/100 − tax| > 0.01`,
where `actualRate = tax/subtotal × 100` and `closest` is a nearest member of
{0, 5, 12, 18, 28}; when tax = 0 a low-severity warning is pushed instead and
the `taxValidation` flag is set.  On the Scenario 3 receipt (printed tax 10.00
on subtotal 85, taxRate 5) a medium `TAX_ERROR` fires and the score drops to
85 = 100 − 15. -/
theorem c2_tax_check :
    (∀ (now : ℤ) (b : BillData), b.subtotal ≠ 0 → b.tax ≠ 0 →
        (validateBill now b).errors.filter (fun e => e.type == IssueType.TAX_ERROR) =
          (if taxRateCond b then [⟨.TAX_ERROR, .medium⟩] else [])
            ++ (if taxAmtCond b then [⟨.TAX_ERROR, .medium⟩] else [])) ∧
      (∀ b : BillData,
        taxRateCond b ↔ |actualTaxRate b - findClosestTaxRate (actualTaxRate b)| > 1 / 2) ∧
      (∀ b : BillData,
        taxAmtCond b ↔ |b.subtotal * findClosestTaxRate (actualTaxRate b) / 100 - b.tax| > 1 / 100) ∧
      (∀ b : BillData, actualTaxRate b = b.tax / b.subtotal * 100) ∧
      (∀ a : ℚ, findClosestTaxRate a ∈ indianTaxRates ∧
        ∀ r ∈ indianTaxRates, |findClosestTaxRate a - a| ≤ |r - a|) ∧
      (∀ (now : ℤ) (b : BillData), b.tax = 0 →
        (⟨.TAX_ERROR, .low⟩ : Issue) ∈ (validateBill now b).warnings ∧
          (validateBill now b).algorithmResults.taxValidation = true) ∧
      (validateBill now0 scenario3Bill).errors = [⟨.TAX_ERROR, .medium⟩] ∧
      (validateBill now0 scenario3Bill).confidenceScore = 85 := by
  refine ⟨?_, fun b => Iff.rfl, fun b => Iff.rfl, fun b => rfl,
    findClosestTaxRate_nearest, ?_, by decide, by decide⟩
  · intro now b _ htax
    rw [errors_filter_tax]
    unfold taxErrs
    rw [if_neg htax]
  · intro now b h0
    refine ⟨?_, ?_⟩
    · rw [validateBill_warnings]
      unfold warnsOf taxWarns
      rw [if_pos h0]
      simp
    · rw [validateBill_flags]
      show taxFlagNew b false = true
      unfold taxFlagNew
      rw [if_pos h0]

/-- C2, witness: the tax characterisation applied to the Scenario 3 receipt
and the tax = 0 branch applied to the all-zero receipt. -/
theorem c2_tax_check_witness :
    scenario3Bill.subtotal ≠ 0 ∧ scenario3Bill.tax ≠ 0 ∧
      (validateBill now0 scenario3Bill).errors.filter
          (fun e => e.type == IssueType.TAX_ERROR) =
        (if taxRateCond scenario3Bill then [⟨.TAX_ERROR, .medium⟩] else [])
          ++ (if taxAmtCond scenario3Bill then [⟨.TAX_ERROR, .medium⟩] else []) ∧
      zeroBill.tax = 0 ∧
      (⟨.TAX_ERROR, .low⟩ : Issue) ∈ (validateBill now0 zeroBill).warnings :=
  ⟨by decide, by decide,
    c2_tax_check.1 now0 scenario3Bill (by decide) (by decide),
    by decide, (c2_tax_check.2.2.2.2.2.1 now0 zeroBill (by decide)).1⟩

/-- C3: the `MATH_ERROR` errors of a run are exactly one high error when
`|sum(item.price) − subtotal| > 0.01` plus one medium error per item with
`|quantity × unitPrice − price| > 0.01`; a subtotal deviation of exactly 0.01
raises no `MATH_ERROR`, a deviation of 0.011 raises one. -/
theorem c3_math_check :
    (∀ (now : ℤ) (b : BillData),
        (validateBill now b).errors.filter (fun e => e.type == IssueType.MATH_ERROR) =
          mathErrs b) ∧
      (∀ b : BillData, mathErrs b =
        (if mathSubCond b then [⟨.MATH_ERROR, .high⟩] else [])
          ++ b.items.filterMap
            (fun i => if mathItemCond i then some ⟨.MATH_ERROR, .medium⟩ else none)) ∧
      (∀ b : BillData, mathSubCond b ↔ |calculatedSubtotal b - b.subtotal| > 1 / 100) ∧
      (∀ i : LineItem, mathItemCond i ↔ |i.quantity * i.unitPrice - i.price| > 1 / 100) ∧
      (validateBill now0 boundary001Bill).errors.filter
          (fun e => e.type == IssueType.MATH_ERROR) = [] ∧
      (⟨.MATH_ERROR, .high⟩ : Issue) ∈ (validateBill now0 boundary0011Bill).errors := by
  refine ⟨errors_filter_math, fun b => rfl, fun b => Iff.rfl, fun i => Iff.rfl, ?_, by decide⟩
  rw [errors_filter_math]
  decide

/-- C4, counterexample: a receipt dated tomorrow (21 hours ahead of the
validation clock, daysDiff = −7/8) produces no error at all and
`isValid = true`, contradicting the claimed high-severity error for
tomorrow's date. -/
theorem c4_counterexample :
    jsDateParse tomorrowBill.date = some 1760173200000 ∧
      (-1 : ℚ) < daysDiffQ now0 1760173200000 ∧
      daysDiffQ now0 1760173200000 < 0 ∧
      (validateBill now0 tomorrowBill).errors = [] ∧
      (validateBill now0 tomorrowBill).isValid = true := by
  decide

/-- C4 (corrected): for a bill with a parseable non-empty date the future-date
error is a `DATE_ERROR` of high severity and fires exactly when
daysDiff = today − billDate < −1, i.e. only when the date is more than one
full day ahead; when it fires the result is invalid. -/
theorem c4_future_date (now : ℤ) (b : BillData) (ms : ℤ)
    (hne : b.date ≠ "") (hms : jsDateParse b.date = some ms) :
    (validateBill now b).errors.filter (fun e => e.type == IssueType.DATE_ERROR) =
        (if daysDiffQ now ms < -1 then [⟨.DATE_ERROR, .high⟩] else []) ∧
      (daysDiffQ now ms < -1 → (validateBill now b).isValid = false) := by
  constructor
  · rw [errors_filter_date]
    unfold dateErrs
    rw [if_neg hne, hms]
  · intro hlt
    have hd : dateErrs now b = [⟨.DATE_ERROR, .high⟩] := by
      unfold dateErrs
      rw [if_neg hne, hms]
      dsimp only
      rw [if_pos hlt]
    rw [validateBill_isValid]
    unfold errorsOf
    rw [hd]
    simp

/-- C4, witness: a receipt dated ten days ahead trips the future-date error
and invalidates the bill. -/
theorem c4_future_date_witness :
    farFutureBill.date ≠ "" ∧ jsDateParse farFutureBill.date = some 1760961600000 ∧
      daysDiffQ now0 1760961600000 < -1 ∧
      (validateBill now0 farFutureBill).errors.filter
          (fun e => e.type == IssueType.DATE_ERROR) = [⟨.DATE_ERROR, .high⟩] ∧
      (validateBill now0 farFutureBill).isValid = false := by
  have h := c4_future_date now0 farFutureBill 1760961600000 (by decide) (by decide)
  refine ⟨by decide, by decide, by decide, ?_, h.2 (by decide)⟩
  rw [h.1]
  decide

/-- C5: whenever the parser derives subtotal and total (both still 0 after the
printed-line pass), the parsed bill passes the validator's math-verification
and total checks: `algorithmResults.mathVerification = true` and
`algorithmResults.totalCheck = true`. -/
theorem c5_roundtrip (raw : String) (now : ℤ)
    (h1 : (parsePre raw).subtotal = 0) (h2 : (parsePre raw).total = 0) :
    (validateBill now (parseBillData raw)).algorithmResults.mathVerification = true ∧
      (validateBill now (parseBillData raw)).algorithmResults.totalCheck = true := by
  obtain ⟨ht, hd, hit⟩ := parsePre_cent raw
  obtain ⟨hi, hs, htx, hdc, htt⟩ := calculateDerivedValues_fields (parsePre raw) h1 h2 ht hd hit
  have hm : ¬ mathSubCond (calculateDerivedValues (parsePre raw)) := by
    unfold mathSubCond calculatedSubtotal
    rw [hi, hs, sub_self, abs_zero]
    norm_num [tolerance]
  have htc : ¬ totalCond (calculateDerivedValues (parsePre raw)) := by
    unfold totalCond
    rw [hs, htx, hdc, htt, sub_self, abs_zero]
    norm_num [tolerance]
  unfold parseBillData
  constructor
  · rw [validateBill_flags]
    show (if mathSubCond (calculateDerivedValues (parsePre raw)) then false else true) = true
    rw [if_neg hm]
  · rw [validateBill_flags]
    show (if totalCond (calculateDerivedValues (parsePre raw)) then false else true) = true
    rw [if_neg htc]

/-- C5, witness: a receipt with no printed subtotal or total line round-trips
through parser and validator with both flags set. -/
theorem c5_roundtrip_witness :
    (parsePre derivedRaw).subtotal = 0 ∧ (parsePre derivedRaw).total = 0 ∧
      (validateBill now0 (parseBillData derivedRaw)).algorithmResults.mathVerification = true ∧
      (validateBill now0 (parseBillData derivedRaw)).algorithmResults.totalCheck = true := by
  have h := c5_roundtrip derivedRaw now0 (by decide) (by decide)
  exact ⟨by decide, by decide, h.1, h.2⟩

/-- C6: `validateBill` is total — on every record it is exactly the body run
through the `try/catch` wrapper's success branch — and an exception inside the
body would be converted by the wrapper into the fixed error result: one
high-severity `VALIDATION_ERROR`, no warnings, confidence 0, `isValid =
false`.  The all-default/zero record completes normally (with the expected
invalid-total error rather than an exception). -/
theorem c6_exception_handling :
    (∀ (now : ℤ) (b : BillData),
        validateBill now b = validateBillCatch (Except.ok (validateBillBody now b))) ∧
      (∀ m : String, validateBillCatch (Except.error m) = validationErrorResult) ∧
      validationErrorResult.isValid = false ∧
      validationErrorResult.confidenceScore = 0 ∧
      validationErrorResult.errors = [⟨.VALIDATION_ERROR, .high⟩] ∧
      validationErrorResult.warnings = [] ∧
      (validateBill now0 zeroBill).errors = [⟨.TOTAL_ERROR, .high⟩] ∧
      (validateBill now0 zeroBill).isValid = false :=
  ⟨fun _ _ => rfl, fun _ => rfl, rfl, rfl, rfl, rfl, by decide, by decide⟩

/-- C7: `parseBillData` is total on strings — every string input yields a
receipt through the success branch of the call boundary — and only the
catastrophic `null` input takes the failure branch, signalling the distinct
parse-failure error.  Unparseable text gives a best-effort, mostly-empty
receipt: the empty input parses to a receipt with no items, zero subtotal and
total, and empty date and store name. -/
theorem c7_parse_total_function :
    (∀ s : String, parseBillDataJS (some s) = Except.ok (parseBillData s)) ∧
      parseBillDataJS none = Except.error parseFailureMessage ∧
      (parseBillData "").items = [] ∧
      (parseBillData "").subtotal = 0 ∧
      (parseBillData "").total = 0 ∧
      (parseBillData "").date = "" ∧
      (parseBillData "").storeName = "" :=
  ⟨fun _ => rfl, rfl, by decide, by decide, by decide, by decide, by decide⟩

/-- C8: in the state-passing form of `validateBill`, where every check passes
the bill record along, the record that comes out is the record that went in —
no check mutates the bill — and the validation result component is exactly the
freshly constructed result of `validateBill`. -/
theorem c8_no_mutation :
    ∀ (now : ℤ) (b : BillData),
      (validateBillS now b).1 = b ∧ (validateBillS now b).2 = validateBill now b :=
  fun _ _ => ⟨rfl, rfl⟩

/-- C9, counterexample: an item line with an explicit `0 pcs` quantity marker
parses to a line item with quantity 0, which is not positive. -/
theorem c9_counterexample :
    (parseBillData zeroQtyRaw).items.map (fun i => i.quantity) = [0] := by
  decide

/-- C9 (corrected): every line item produced by `parseItemLine` has a
non-negative quantity, and the quantity defaults to 1 exactly when the line
carries no quantity marker; hence every item of `parseBillData`'s output has
non-negative (not necessarily positive) quantity. -/
theorem c9_quantity :
    (∀ (line : String) (item : LineItem), parseItemLine line = some item →
        0 ≤ item.quantity ∧
          (firstMatchC matchQtyAt (trimC (stripPrices line.toList)) = none →
            item.quantity = 1)) ∧
      ∀ (raw : String), ∀ item ∈ (parseBillData raw).items, 0 ≤ item.quantity := by
  have key : ∀ (line : String) (item : LineItem), parseItemLine line = some item →
      0 ≤ item.quantity ∧
        (firstMatchC matchQtyAt (trimC (stripPrices line.toList)) = none →
          item.quantity = 1) := by
    intro line item h
    unfold parseItemLine at h
    split at h
    case _ => exact absurd h (by simp)
    case _ p hp =>
      dsimp only at h
      split_ifs at h
      injection h with h2
      subst h2
      rcases hfm : firstMatchC matchQtyAt (trimC (stripPrices line.toList)) with _ | ⟨m, n⟩ <;>
        dsimp only
      · exact ⟨by norm_num, fun _ => rfl⟩
      · exact ⟨Nat.cast_nonneg n, fun hc => by simp at hc⟩
  refine ⟨key, ?_⟩
  intro raw item hmem
  rw [show (parseBillData raw).items = extractItems (preprocessText raw) from
    (calculateDerivedValues_items (parsePre raw)).trans (parsePre_items raw)] at hmem
  unfold extractItems at hmem
  dsimp only at hmem
  rcases List.mem_filterMap.1 hmem with ⟨line, _, hline⟩
  exact (key line item hline).1

/-- C9, witness: a marker-free item line parses with the default quantity 1,
and every item parsed from a concrete receipt has non-negative quantity. -/
theorem c9_quantity_witness :
    parseItemLine "Rice ₹85.00" = some riceItem ∧
      firstMatchC matchQtyAt (trimC (stripPrices ("Rice ₹85.00").toList)) = none ∧
      riceItem.quantity = 1 ∧
      0 ≤ riceItem.quantity ∧
      ∀ item ∈ (parseBillData derivedRaw).items, 0 ≤ item.quantity :=
  ⟨by decide, by decide,
    (c9_quantity.1 "Rice ₹85.00" riceItem (by decide)).2 (by decide),
    (c9_quantity.1 "Rice ₹85.00" riceItem (by decide)).1,
    c9_quantity.2 derivedRaw⟩

/-- C10: on every (non-exceptional) run of `validateBill` the published
`dateValidation` and `patternAnalysis` flags are `true` for every bill —
including a bill whose date check emits a high-severity future-date error —
so those two pass/fail flags never report failure. -/
theorem c10_vacuous_flags :
    (∀ (now : ℤ) (b : BillData),
        (validateBill now b).algorithmResults.dateValidation = true ∧
          (validateBill now b).algorithmResults.patternAnalysis = true) ∧
      (⟨.DATE_ERROR, .high⟩ : Issue) ∈ (validateBill now0 farFutureBill).errors ∧
      (validateBill now0 farFutureBill).algorithmResults.dateValidation = true ∧
      (validateBill now0 farFutureBill).algorithmResults.patternAnalysis = true := by
  refine ⟨?_, by decide, by decide, by decide⟩
  intro now b
  rw [validateBill_flags]
  exact ⟨rfl, rfl⟩

end BillVerify

